import Mathlib

/-!
Aquavision frontend: history browser and settings store.

A shallow embedding of the pure logic of `src/pages/HistoryPage.jsx` and
`src/pages/DetectionPage.jsx`: the pagination window, the query-parameter
builder, the settings loader and the page-navigation steps.

JavaScript numbers that hold page indices are modelled as `Int`, strings as
`String`, `undefined` as `Option.none`, and a thrown exception as `none` in the
result of the function that throws.
-/

namespace Aquavision

/-! ## Pagination window (`HistoryPage.jsx`, `getPaginationItems`) -/

/-- Number of records on a page (`PAGE_SIZE`). -/
def PAGE_SIZE : Nat := 10

/-- An element of the array built by `getPaginationItems`: a page number or one
of the two marker strings `'ellipsis-left'` / `'ellipsis-right'`. -/
inductive PageToken where
  | page (n : Int)
  | ellipsisLeft
  | ellipsisRight
  deriving DecidableEq, Repr

/-- The loop `for (let i = 1; i <= totalPages; i++) pages.push(i)`, started at
`i` with the array `pages`; `fuel` bounds the number of iterations. -/
def pushPages (totalPages : Int) : Nat → Int → List PageToken → List PageToken
  | 0, _, pages => pages
  | fuel + 1, i, pages =>
    if i ≤ totalPages then pushPages totalPages fuel (i + 1) (pages ++ [PageToken.page i])
    else pages

/-- The expression `Array.from({length: 5}, (_, i) => totalPages - 4 + i)`: the
last five pages. -/
def lastFive (totalPages : Int) : List PageToken :=
  (List.range 5).map (fun i => PageToken.page (totalPages - 4 + (i : Int)))

/-- The function `getPaginationItems`, as a function of the two variables it closes over. -/
def getPaginationItems (totalPages currentPage : Int) : List PageToken :=
  if totalPages ≤ 7 then
    pushPages totalPages totalPages.toNat 1 []
  else if currentPage ≤ 4 then
    [.page 1, .page 2, .page 3, .page 4, .page 5, .ellipsisRight, .page totalPages]
  else if currentPage ≥ totalPages - 3 then
    [.page 1, .ellipsisLeft] ++ lastFive totalPages
  else
    [.page 1, .ellipsisLeft, .page (currentPage - 1), .page currentPage,
      .page (currentPage + 1), .ellipsisRight, .page totalPages]

/-- The list `1..n` of page-number tokens, as the specification writes it. -/
def pagesUpTo (n : Nat) : List PageToken :=
  (List.range' 1 n).map (fun (k : Nat) => PageToken.page (k : Int))

/-! ## JavaScript objects as ordered key/value lists -/

/-- Property read `o[k]` on an object given as its list of own string-keyed
properties in insertion order; `none` stands for `undefined`. -/
def jsGet {α : Type} : List (String × α) → String → Option α
  | [], _ => none
  | (k', v) :: rest, k => if k' = k then some v else jsGet rest k

/-- Property write `o[k] = v`: an existing key keeps its position and takes the
new value, a new key is appended. -/
def jsSet {α : Type} : List (String × α) → String → α → List (String × α)
  | [], k, v => [(k, v)]
  | (k', v') :: rest, k, v =>
    if k' = k then (k', v) :: rest else (k', v') :: jsSet rest k v

/-- The call `Object.keys(o)`. -/
def jsKeys {α : Type} (o : List (String × α)) : List String :=
  o.map Prod.fst

/-- Conversion of a possibly `undefined` string inside a template literal. -/
def templateString : Option String → String
  | some s => s
  | none => "undefined"

/-- The expression `x || undefined` for a string `x`: the empty string is the
only falsy string. -/
def orUndefined (x : String) : Option String :=
  if x = "" then none else some x

namespace HistoryPage

/-! ## Query builder (`HistoryPage.jsx`, `fetchDetections`) -/

/-- The constant `AVAILABLE_CLASSES` of `HistoryPage.jsx`. -/
def AVAILABLE_CLASSES : List String :=
  ["контейнеровоз", "лайнер", "военный корабль", "рыбацкая лодка", "балкер",
    "парусное судно", "яхта"]

/-- The table `CLASS_TO_API_KEY` of `HistoryPage.jsx`. -/
def CLASS_TO_API_KEY : List (String × String) :=
  [("контейнеровоз", "container_ship"),
   ("лайнер", "liner"),
   ("военный корабль", "warship"),
   ("рыбацкая лодка", "fishing_boat"),
   ("балкер", "bulk_carrier"),
   ("парусное судно", "sailboat"),
   ("яхта", "canoe")]

/-- One entry of `classFilters`. The bounds are the strings of the inputs. -/
structure ClassFilter where
  enabled : Bool
  min : String
  max : String
  deriving DecidableEq, Repr

/-- The object `dateRange`; `end_` is the property `end`. -/
structure DateRange where
  start : String
  end_ : String
  deriving DecidableEq, Repr

/-- The object `objectCount`. -/
structure ObjectCount where
  min : String
  max : String
  deriving DecidableEq, Repr

/-- A filter object (`draftFilters` / `filters`). `detectionId` is `none` when
the object has no such property, as the object built by `resetFilters`. -/
structure FilterState where
  detectionId : Option String
  dateRange : DateRange
  objectCount : ObjectCount
  classFilters : List (String × ClassFilter)
  deriving DecidableEq, Repr

/-- The object literal `params` of `fetchDetections`, before the class loop. -/
def initialParams (filters : FilterState) : List (String × Option String) :=
  [("start_date", orUndefined filters.dateRange.start),
   ("end_date", orUndefined filters.dateRange.end_),
   ("min_objects", orUndefined filters.objectCount.min),
   ("max_objects", orUndefined filters.objectCount.max),
   ("detection_id", filters.detectionId.bind orUndefined)]

/-- Body of the callback of `AVAILABLE_CLASSES.forEach` in `fetchDetections`.
`none` is the `TypeError` of reading `.enabled` of `undefined`. -/
def addClassParams (filters : FilterState) (params : List (String × Option String))
    (cls : String) : Option (List (String × Option String)) :=
  let serverName := templateString (jsGet CLASS_TO_API_KEY cls)
  match jsGet filters.classFilters cls with
  | none => none
  | some cf =>
    if cf.enabled then
      let minVal := if cf.min = "" then "0" else cf.min
      let maxVal := if cf.max = "" then "1000" else cf.max
      some (jsSet (jsSet params ("min_" ++ serverName) (some minVal))
        ("max_" ++ serverName) (some maxVal))
    else
      some (jsSet (jsSet params ("min_" ++ serverName) (some "0"))
        ("max_" ++ serverName) (some "0"))

/-- The statement `Object.keys(params).forEach(key => params[key] === undefined
&& delete params[key])`. -/
def deleteUndefined (params : List (String × Option String)) : List (String × String) :=
  params.filterMap (fun kv => kv.2.map (fun v => (kv.1, v)))

/-- The query parameters handed to `axios.get` by `fetchDetections`, or `none`
when building them throws. -/
def buildParams (filters : FilterState) : Option (List (String × String)) :=
  (AVAILABLE_CLASSES.foldlM (addClassParams filters) (initialParams filters)).map
    deleteUndefined

/-- The initial value of `draftFilters` and `filters`. -/
def defaultFilters : FilterState :=
  { detectionId := some ""
    dateRange := { start := "", end_ := "" }
    objectCount := { min := "", max := "" }
    classFilters := AVAILABLE_CLASSES.map
      (fun cls => (cls, { enabled := true, min := "", max := "" })) }

/-- The filter object has an entry for every class of `AVAILABLE_CLASSES`. -/
def HasAllClasses (filters : FilterState) : Prop :=
  ∀ cls ∈ AVAILABLE_CLASSES, (jsGet filters.classFilters cls).isSome = true

instance (filters : FilterState) : Decidable (HasAllClasses filters) := by
  unfold HasAllClasses; infer_instance

/-- Value sent as `min_<apiKey>` for a class filter. -/
def minParam (cf : ClassFilter) : String :=
  if cf.enabled then (if cf.min = "" then "0" else cf.min) else "0"

/-- Value sent as `max_<apiKey>` for a class filter. -/
def maxParam (cf : ClassFilter) : String :=
  if cf.enabled then (if cf.max = "" then "1000" else cf.max) else "0"

/-- The fourteen class parameters in the order the loop writes them. -/
def classEntries (cf : String → ClassFilter) : List (String × String) :=
  [("min_container_ship", minParam (cf "контейнеровоз")),
   ("max_container_ship", maxParam (cf "контейнеровоз")),
   ("min_liner", minParam (cf "лайнер")),
   ("max_liner", maxParam (cf "лайнер")),
   ("min_warship", minParam (cf "военный корабль")),
   ("max_warship", maxParam (cf "военный корабль")),
   ("min_fishing_boat", minParam (cf "рыбацкая лодка")),
   ("max_fishing_boat", maxParam (cf "рыбацкая лодка")),
   ("min_bulk_carrier", minParam (cf "балкер")),
   ("max_bulk_carrier", maxParam (cf "балкер")),
   ("min_sailboat", minParam (cf "парусное судно")),
   ("max_sailboat", maxParam (cf "парусное судно")),
   ("min_canoe", minParam (cf "яхта")),
   ("max_canoe", maxParam (cf "яхта"))]

/-- The five parameter names of the object literal `params`. -/
def scalarParamNames : List String :=
  ["start_date", "end_date", "min_objects", "max_objects", "detection_id"]

/-- The two parameter names the class loop writes for `cls`. -/
def classParamNamesOf (cls : String) : List String :=
  ["min_" ++ templateString (jsGet CLASS_TO_API_KEY cls),
   "max_" ++ templateString (jsGet CLASS_TO_API_KEY cls)]

/-- The fourteen parameter names the class loop writes, in loop order. -/
def classParamNames : List String :=
  AVAILABLE_CLASSES.flatMap classParamNamesOf

/-- A sample applied filter: id 42, a start date, at most 5 objects, liners
switched off with stale bounds 3..9, warships bounded 2..∅, the rest default. -/
def sampleFilters : FilterState :=
  { detectionId := some "42"
    dateRange := { start := "2024-05-01T10:00", end_ := "" }
    objectCount := { min := "", max := "5" }
    classFilters :=
      [("контейнеровоз", { enabled := true, min := "", max := "" }),
       ("лайнер", { enabled := false, min := "3", max := "9" }),
       ("военный корабль", { enabled := true, min := "2", max := "" }),
       ("рыбацкая лодка", { enabled := true, min := "", max := "" }),
       ("балкер", { enabled := true, min := "", max := "" }),
       ("парусное судно", { enabled := true, min := "", max := "" }),
       ("яхта", { enabled := true, min := "", max := "" })] }

end HistoryPage

namespace DetectionPage

/-! ## Settings store (`DetectionPage.jsx`, `loadSettings`) -/

/-- The constant `AVAILABLE_CLASSES` of `DetectionPage.jsx`. -/
def AVAILABLE_CLASSES : List String :=
  ["балкер", "контейнеровоз", "парусное судно", "рыбацкая лодка", "лайнер",
    "военный корабль", "яхта"]

/-- A value produced by `JSON.parse`. An object is the list of its properties;
a number keeps only its source text, which no code here inspects. -/
inductive Json where
  | null
  | bool (b : Bool)
  | num (text : String)
  | str (s : String)
  | arr (items : List Json)
  | obj (props : List (String × Json))

/-- The test `AVAILABLE_CLASSES.includes(cls)` paired with the element it keeps: only a
string equal to a known class is included. -/
def knownClass : Json → Option String
  | .str s => if s ∈ AVAILABLE_CLASSES then some s else none
  | _ => none

/-- The `try` block of `loadSettings`. The outer `none` is a thrown exception
(`JSON.parse` failing, or reading a property of `null`); `some none` is falling
out of the `if`s without returning. `parse` is `JSON.parse`, `stored` the result
of `localStorage.getItem(STORAGE_KEY)` (`none` for `null`). -/
def loadSettingsTry (parse : String → Option Json) (stored : Option String) :
    Option (Option (List String)) :=
  match stored with
  | none => some none
  | some savedSettings =>
    if savedSettings = "" then some none
    else
      match parse savedSettings with
      | none => none
      | some .null => none
      | some (.obj props) =>
        match jsGet props "selectedClasses" with
        | some (.arr items) => some (some (items.filterMap knownClass))
        | _ => some none
      | some _ => some none

/-- The function `loadSettings`: the value returned inside the `try` block if there is one,
otherwise (exception caught, or no return reached) a copy of
`AVAILABLE_CLASSES`. -/
def loadSettings (parse : String → Option Json) (stored : Option String) : List String :=
  match loadSettingsTry parse stored with
  | some (some selected) => selected
  | _ => AVAILABLE_CLASSES

/-- Whether a parsed value is a plain object (not `null`, a primitive or an
array). -/
def Json.isObj : Json → Bool
  | .obj _ => true
  | _ => false

/-- Whether a parsed value is an array. -/
def Json.isArr : Json → Bool
  | .arr _ => true
  | _ => false

/-- The stored settings of the witnesses: two known classes, an unknown one in
between, and a repeated known class. -/
def sampleStored : Json :=
  .obj [("selectedClasses",
    .arr (["яхта", "подводная лодка", "балкер", "яхта"].map Json.str))]

end DetectionPage

namespace HistoryPage

/-! ## Dataset and page navigation (`HistoryPage.jsx`) -/

/-- One element of `res.data.detections`, with the fields the page reads. -/
structure Detection where
  id : Int
  detection_time : String
  object_count : Int
  object_classes : List String
  input_image_key : String
  output_image_key : String
  settings_classes : Option (List String)
  deriving DecidableEq, Repr

/-- The component state the history logic reads and writes. -/
structure HistoryState where
  detections : List Detection
  currentPage : Int
  loading : Bool
  error : Option String
  draftFilters : FilterState
  filters : FilterState
  deriving DecidableEq, Repr

/-- The state of the first render (`useState` initial values). -/
def initialState : HistoryState :=
  { detections := []
    currentPage := 1
    loading := false
    error := none
    draftFilters := defaultFilters
    filters := defaultFilters }

/-- The expression `Math.ceil(detections.length / PAGE_SIZE)`. -/
def totalPages (detections : List Detection) : Int :=
  ((detections.length + (PAGE_SIZE - 1)) / PAGE_SIZE : Nat)

/-- The part of `fetchDetections` up to the request: `setLoading(true); setError(null)`. -/
def fetchStarted (s : HistoryState) : HistoryState :=
  { s with loading := true, error := none }

/-- The part of `fetchDetections` after a response arrived: `setDetections(res.data.detections
|| [])`, `setCurrentPage(1)`, then `setLoading(false)` of the `finally` block.
`detections` is `none` when the response has no such field. -/
def fetchSucceeded (s : HistoryState) (detections : Option (List Detection)) : HistoryState :=
  { s with detections := detections.getD [], currentPage := 1, loading := false }

/-- The part of `fetchDetections` after the request failed: the `catch` block sets the
error message, the `finally` block clears `loading`. -/
def fetchFailed (s : HistoryState) : HistoryState :=
  { s with error := some "Ошибка загрузки данных", loading := false }

/-- Whether the pagination controls are rendered: neither `loading` nor a
truthy `error`. -/
def controlsShown (s : HistoryState) : Bool :=
  !s.loading && !(match s.error with
    | some msg => msg != ""
    | none => false)

/-- What can happen to the dataset and the page index. -/
inductive Event where
  | fetchStart
  | fetchSuccess (detections : Option (List Detection))
  | fetchFailure
  | clickPrev
  | clickNext
  | clickPage (token : PageToken)
  deriving DecidableEq, Repr

/-- One transition of the page. `none` when the event cannot occur: the control
is not rendered, the button is `disabled`, or the token is not a page button of
the current window. The three click handlers are
`setCurrentPage(p => Math.max(p - 1, 1))`,
`setCurrentPage(p => Math.min(p + 1, totalPages))` and `setCurrentPage(page)`. -/
def step (s : HistoryState) : Event → Option HistoryState
  | .fetchStart => some (fetchStarted s)
  | .fetchSuccess detections => some (fetchSucceeded s detections)
  | .fetchFailure => some (fetchFailed s)
  | .clickPrev =>
    if controlsShown s && s.currentPage != 1 then
      some { s with currentPage := max (s.currentPage - 1) 1 }
    else none
  | .clickNext =>
    if controlsShown s && s.currentPage != totalPages s.detections then
      some { s with currentPage := min (s.currentPage + 1) (totalPages s.detections) }
    else none
  | .clickPage token =>
    match token with
    | .page n =>
      if controlsShown s
          && decide (token ∈ getPaginationItems (totalPages s.detections) s.currentPage) then
        some { s with currentPage := n }
      else none
    | _ => none

/-- Runs a sequence of events from a state. -/
def run (s : HistoryState) : List Event → Option HistoryState
  | [] => some s
  | e :: es => (step s e).bind (fun s' => run s' es)

/-- The dataset invariant of the specification:
`currentPage ∈ [1, max(1, ceil(len(detections)/PAGE_SIZE))]`. -/
def PageInvariant (s : HistoryState) : Prop :=
  1 ≤ s.currentPage ∧ s.currentPage ≤ max 1 (totalPages s.detections)

instance (s : HistoryState) : Decidable (PageInvariant s) := by
  unfold PageInvariant; infer_instance

/-! ## Fetching and filter editing (`HistoryPage.jsx`) -/

/-- The body `res.data` of a response of `GET /detections`; `detections` is
`none` when the field is missing. -/
structure FetchResponse where
  detections : Option (List Detection)
  deriving DecidableEq, Repr

/-- One call of `fetchDetections` from state `s` with nothing else happening
between the request and its answer. `get` is
`axios.get('http://localhost:8000/detections', { params })`, with `none` for a
rejected request; an exception while the parameters are built is caught by the
same `catch` block. When other updates come in between, the part after the
`await` runs on the state of the moment of the answer: see `settleFetch`. -/
def fetchDetections (get : List (String × String) → Option FetchResponse)
    (s : HistoryState) : HistoryState :=
  match buildParams s.filters with
  | none => fetchFailed (fetchStarted s)
  | some params =>
    match get params with
    | none => fetchFailed (fetchStarted s)
    | some res => fetchSucceeded (fetchStarted s) res.detections

/-- The updater of `toggleClassFilter(cls)` applied to the previous draft.
`none` is the `TypeError` of reading `.enabled` of a missing entry. -/
def toggleClassFilterUpdate (cls : String) (prev : FilterState) : Option FilterState :=
  match jsGet prev.classFilters cls with
  | none => none
  | some cf =>
    some { prev with
      classFilters := jsSet prev.classFilters cls { cf with enabled := !cf.enabled } }

/-- The property names `handleClassRangeChange` is called with. -/
inductive RangeField where
  | min
  | max
  deriving DecidableEq, Repr

/-- The updater of `handleClassRangeChange(cls, field, value)` applied to the
previous draft. `none` when the draft has no entry for `cls`: the source does
not throw there, it spreads `undefined` and builds an entry that has only the
written bound and no `enabled`, which `ClassFilter` cannot hold. The class
cards call the handler with classes that have an entry. -/
def handleClassRangeChangeUpdate (cls : String) (field : RangeField) (value : String)
    (prev : FilterState) : Option FilterState :=
  match jsGet prev.classFilters cls with
  | none => none
  | some cf =>
    some { prev with
      classFilters := jsSet prev.classFilters cls
        (match field with
         | .min => { cf with min := value }
         | .max => { cf with max := value }) }

/-- The four `(filterType, field)` pairs `handleFilterChange` is called with. -/
inductive FilterField where
  | dateRangeStart
  | dateRangeEnd
  | objectCountMin
  | objectCountMax
  deriving DecidableEq, Repr

/-- The updater of `handleFilterChange(filterType, field, value)` applied to the
previous draft. -/
def handleFilterChangeUpdate (field : FilterField) (value : String)
    (prev : FilterState) : FilterState :=
  match field with
  | .dateRangeStart => { prev with dateRange := { prev.dateRange with start := value } }
  | .dateRangeEnd => { prev with dateRange := { prev.dateRange with end_ := value } }
  | .objectCountMin => { prev with objectCount := { prev.objectCount with min := value } }
  | .objectCountMax => { prev with objectCount := { prev.objectCount with max := value } }

/-- The updater of the `onChange` of the id input:
`prev => ({ ...prev, detectionId: e.target.value })`. -/
def detectionIdUpdate (value : String) (prev : FilterState) : FilterState :=
  { prev with detectionId := some value }

/-- The object `initialFilters` built inside `resetFilters`: it has `dateRange`,
`objectCount` and `classFilters`, and no `detectionId` property. -/
def initialFilters : FilterState :=
  { detectionId := none
    dateRange := { start := "", end_ := "" }
    objectCount := { min := "", max := "" }
    classFilters := AVAILABLE_CLASSES.map
      (fun cls => (cls, { enabled := true, min := "", max := "" })) }

/-- A state on page 3 of old data, showing an old error. -/
def staleState : HistoryState :=
  { initialState with
    detections := List.replicate 25 ⟨1, "", 0, [], "", "", none⟩
    currentPage := 3
    error := some "Ошибка загрузки данных" }

/-- The component between two renders: its state and the identities of the
objects held by `draftFilters` and `filters` (`useEffect` compares its
dependency `filters` by identity). `nextRef` is the identity the next object
built by a handler gets. -/
structure Page where
  state : HistoryState
  draftRef : Nat
  filtersRef : Nat
  nextRef : Nat
  deriving DecidableEq, Repr

/-- The first render: `useState(draftFilters)` hands the one initial object to
both states. -/
def initialPage : Page :=
  { state := initialState, draftRef := 0, filtersRef := 0, nextRef := 1 }

/-- The call `setDraftFilters(updater)`: the draft becomes the new object the
updater builds. `none` when the updater gives no filter object: it throws, or
it builds an entry that `ClassFilter` cannot hold. -/
def setDraftFilters (p : Page) (updater : FilterState → Option FilterState) : Option Page :=
  match updater p.state.draftFilters with
  | none => none
  | some draft =>
    some { p with
      state := { p.state with draftFilters := draft }
      draftRef := p.nextRef
      nextRef := p.nextRef + 1 }

/-- The draft edits the filter panel can make. -/
inductive DraftEdit where
  | toggleClassFilter (cls : String)
  | handleClassRangeChange (cls : String) (field : RangeField) (value : String)
  | handleFilterChange (field : FilterField) (value : String)
  | detectionId (value : String)
  deriving DecidableEq, Repr

/-- The handler of a draft edit. -/
def editDraft (p : Page) : DraftEdit → Option Page
  | .toggleClassFilter cls => setDraftFilters p (toggleClassFilterUpdate cls)
  | .handleClassRangeChange cls field value =>
    setDraftFilters p (handleClassRangeChangeUpdate cls field value)
  | .handleFilterChange field value =>
    setDraftFilters p (fun prev => some (handleFilterChangeUpdate field value prev))
  | .detectionId value =>
    setDraftFilters p (fun prev => some (detectionIdUpdate value prev))

/-- The class an edit is about, for the two handlers the class cards call with
a class of `AVAILABLE_CLASSES`. -/
def DraftEdit.targetsKnownClass : DraftEdit → Prop
  | .toggleClassFilter cls => cls ∈ AVAILABLE_CLASSES
  | .handleClassRangeChange cls _ _ => cls ∈ AVAILABLE_CLASSES
  | _ => True

/-- The handler `applyFilters`: `setFilters(draftFilters)`. -/
def applyFilters (p : Page) : Page :=
  { p with
    state := { p.state with filters := p.state.draftFilters }
    filtersRef := p.draftRef }

/-- The handler `resetFilters`: both states receive the one new object
`initialFilters`. -/
def resetFilters (p : Page) : Page :=
  { state := { p.state with draftFilters := initialFilters, filters := initialFilters }
    draftRef := p.nextRef
    filtersRef := p.nextRef
    nextRef := p.nextRef + 1 }

/-- Whether the effect `useEffect(() => { fetchDetections() }, [filters])` runs
after the update from `before` to `after`: the dependency changed identity. -/
def effectDue (before after : Page) : Bool :=
  before.filtersRef != after.filtersRef

/-- Every identity in use is older than the next fresh one. -/
def RefsFresh (p : Page) : Prop :=
  p.draftRef < p.nextRef ∧ p.filtersRef < p.nextRef

end HistoryPage

namespace DetectionPage

/-! ## Detection session (`DetectionPage.jsx`, `handleDetect`) -/

/-- A file chosen by the operator; only its identity matters here. -/
structure File where
  name : String
  deriving DecidableEq, Repr

/-- The body of a response of `POST /upload-image`. -/
structure UploadResponse where
  image_key : String
  deriving DecidableEq, Repr

/-- The body of the request `POST /detect-image`. -/
structure DetectRequest where
  image_key : String
  classes : List String
  deriving DecidableEq, Repr

/-- The body of a response of `POST /detect-image`. -/
structure DetectResponse where
  detection_id : Int
  object_count : Int
  object_classes : List String
  processed_image_key : String
  deriving DecidableEq, Repr

/-- The object given to `setDetection`: the spread of the detect response and
the two image addresses. -/
structure DetectionResult extends DetectResponse where
  originalImage : String
  processedImage : String
  deriving DecidableEq, Repr

/-- The component state (`useState` hooks of `DetectionPage`). -/
structure DetectionState where
  file : Option File
  detection : Option DetectionResult
  selectedClasses : List String
  settingsOpen : Bool
  isLoading : Bool
  deriving DecidableEq, Repr

/-- What a handler does to the outside world. -/
inductive Call where
  | alert (message : String)
  | upload (file : File)
  | detect (request : DetectRequest)
  deriving DecidableEq, Repr

/-- The variables an invocation of `handleDetect` closes over once it passed the
`!file` guard: the file and the selected classes of the render it was created
in. -/
structure Run where
  file : File
  selectedClasses : List String
  deriving DecidableEq, Repr

/-- The expression `selectedClasses.length === AVAILABLE_CLASSES.length ?
AVAILABLE_CLASSES : selectedClasses`. -/
def classesToSend (selectedClasses : List String) : List String :=
  if selectedClasses.length = AVAILABLE_CLASSES.length then AVAILABLE_CLASSES
  else selectedClasses

/-- The body of the detect request of a run, once the upload answered. -/
def detectRequest (r : Run) (uploadRes : UploadResponse) : DetectRequest :=
  { image_key := uploadRes.image_key, classes := classesToSend r.selectedClasses }

/-- The argument of `setDetection` built from the two responses. -/
def detectionResult (uploadRes : UploadResponse) (detectRes : DetectResponse) :
    DetectionResult :=
  { detectRes with
    originalImage := "http://localhost:9000/detections/" ++ uploadRes.image_key
    processedImage := "http://localhost:9000/detections/" ++ detectRes.processed_image_key }

/-- The synchronous start of `handleDetect`, up to the first `await`: the
`!file` guard, `setIsLoading(true)` and the upload request. The middle
component is the run left waiting for the upload, if any. -/
def handleDetectBegin (s : DetectionState) : DetectionState × Option Run × List Call :=
  match s.file with
  | none => (s, none, [.alert "Выберите файл"])
  | some file =>
    ({ s with isLoading := true }, some { file := file, selectedClasses := s.selectedClasses },
      [.upload file])

/-- The continuation of `handleDetect` when the upload settles, applied to the
state of that moment. A failed upload (`none`) goes to `catch` and `finally`;
a successful one issues the detect request and waits again. -/
def handleDetectAfterUpload (r : Run) (uploadRes : Option UploadResponse)
    (s : DetectionState) : DetectionState × Option UploadResponse × List Call :=
  match uploadRes with
  | none => ({ s with isLoading := false }, none, [.alert "Ошибка при распознавании"])
  | some u => (s, some u, [.detect (detectRequest r u)])

/-- The continuation of `handleDetect` when the detect request settles, applied
to the state of that moment: `setDetection(...)` on success, the `catch` block
on failure, and `setIsLoading(false)` in both cases. -/
def handleDetectAfterDetect (uploadRes : UploadResponse) (detectRes : Option DetectResponse)
    (s : DetectionState) : DetectionState × List Call :=
  match detectRes with
  | none => ({ s with isLoading := false }, [.alert "Ошибка при распознавании"])
  | some d =>
    ({ s with detection := some (detectionResult uploadRes d), isLoading := false }, [])

/-- One call of `handleDetect` run to completion with nothing happening in
between. `upload` and `detect` are the two `axios.post` calls, `none` for a
rejected request. The result is the final state and the calls made, in order. -/
def handleDetect (upload : File → Option UploadResponse)
    (detect : DetectRequest → Option DetectResponse) (s : DetectionState) :
    DetectionState × List Call :=
  match handleDetectBegin s with
  | (s1, none, calls1) => (s1, calls1)
  | (s1, some r, calls1) =>
    match handleDetectAfterUpload r (upload r.file) s1 with
    | (s2, none, calls2) => (s2, calls1 ++ calls2)
    | (s2, some u, calls2) =>
      match handleDetectAfterDetect u (detect (detectRequest r u)) s2 with
      | (s3, calls3) => (s3, calls1 ++ calls2 ++ calls3)

/-- Whether the detect button is rendered and not `disabled`:
`!detection`, and not `!file || isLoading`. -/
def detectEnabled (s : DetectionState) : Bool :=
  s.detection.isNone && s.file.isSome && !s.isLoading

/-- The handler `handleReset`. -/
def handleReset (s : DetectionState) : DetectionState :=
  { s with file := none, detection := none }

/-- The handler `handleFileChange` of `DetectionPage` for a chosen file. -/
def handleFileChange (f : File) (s : DetectionState) : DetectionState :=
  { s with file := some f, detection := none }

/-- A run of `handleDetect` waiting for the network. -/
inductive InFlight where
  | uploading (r : Run)
  | detecting (r : Run) (uploadRes : UploadResponse)
  deriving DecidableEq, Repr

/-- The component together with the runs waiting for the network and the calls
made so far. -/
structure Session where
  state : DetectionState
  inFlight : List InFlight
  calls : List Call
  deriving DecidableEq, Repr

/-- What can happen to a session. A click is on a control of the page; the two
`settles` actions deliver the answer to the oldest waiting run. -/
inductive Action where
  | clickDetect
  | clickReset
  | changeFile (f : File)
  | dropFile (f : File)
  | uploadSettles (uploadRes : Option UploadResponse)
  | detectSettles (detectRes : Option DetectResponse)
  deriving DecidableEq, Repr

/-- The session the page starts with, for the classes `loadSettings` returned. -/
def initialSession (selectedClasses : List String) : Session :=
  { state :=
      { file := none, detection := none, selectedClasses := selectedClasses,
        settingsOpen := false, isLoading := false }
    inFlight := []
    calls := [] }

/-- One transition of the session. A click on a control that is not rendered
or is `disabled`, and an answer nobody waits for, leave the session as it is.
The detect button is rendered when `!detection` and disabled when
`!file || isLoading`; the reset button is rendered when `file && !detection`;
the "change" button, which leads to `handleFileChange`, when `detection`; the
drop zone of `UploadForm`, which calls `setFile`, when `!detection`. -/
def dispatch (sess : Session) : Action → Session
  | .clickDetect =>
    if detectEnabled sess.state then
      match handleDetectBegin sess.state with
      | (s1, some r, calls1) =>
        { state := s1, inFlight := sess.inFlight ++ [.uploading r],
          calls := sess.calls ++ calls1 }
      | (s1, none, calls1) => { sess with state := s1, calls := sess.calls ++ calls1 }
    else sess
  | .clickReset =>
    if sess.state.file.isSome && sess.state.detection.isNone then
      { sess with state := handleReset sess.state }
    else sess
  | .changeFile f =>
    if sess.state.detection.isSome then { sess with state := handleFileChange f sess.state }
    else sess
  | .dropFile f =>
    if sess.state.detection.isNone then { sess with state := { sess.state with file := some f } }
    else sess
  | .uploadSettles uploadRes =>
    match sess.inFlight with
    | .uploading r :: rest =>
      match handleDetectAfterUpload r uploadRes sess.state with
      | (s2, some u, calls2) =>
        { state := s2, inFlight := .detecting r u :: rest, calls := sess.calls ++ calls2 }
      | (s2, none, calls2) => { state := s2, inFlight := rest, calls := sess.calls ++ calls2 }
    | _ => sess
  | .detectSettles detectRes =>
    match sess.inFlight with
    | .detecting _ u :: rest =>
      match handleDetectAfterDetect u detectRes sess.state with
      | (s3, calls3) => { state := s3, inFlight := rest, calls := sess.calls ++ calls3 }
    | _ => sess

/-- Runs a sequence of actions from a session. -/
def dispatchAll (sess : Session) : List Action → Session
  | [] => sess
  | a :: rest => dispatchAll (dispatch sess a) rest

/-- The sessions the page can be in: at most one run waits, and `isLoading`
tells whether one does. -/
def SingleRun (sess : Session) : Prop :=
  (sess.inFlight = [] ∧ sess.state.isLoading = false)
    ∨ (sess.inFlight.length = 1 ∧ sess.state.isLoading = true)

/-- Two sample files. -/
def fileA : File := { name := "a.png" }

/-- The second sample file. -/
def fileB : File := { name := "b.png" }

/-- A sample detect response. -/
def sampleDetectResponse : DetectResponse :=
  { detection_id := 7, object_count := 2, object_classes := ["яхта", "яхта"],
    processed_image_key := "out/7.png" }

/-- A state with `fileA` selected and two classes chosen. -/
def readyState : DetectionState :=
  { file := some fileA, detection := none, selectedClasses := ["яхта", "балкер"],
    settingsOpen := false, isLoading := false }

end DetectionPage

namespace DetectionPage

/-! ## Saving the settings (`DetectionPage.jsx`, the `useEffect` on `selectedClasses`) -/

/-- The object `{ selectedClasses }` built by the saving effect. -/
def settingsObject (selectedClasses : List String) : Json :=
  .obj [("selectedClasses", .arr (selectedClasses.map Json.str))]

/-- The text the saving effect stores under `STORAGE_KEY`:
`JSON.stringify({ selectedClasses })`, with `stringify` for `JSON.stringify`. -/
def savedSettings (stringify : Json → String) (selectedClasses : List String) : String :=
  stringify (settingsObject selectedClasses)

/-- The text `JSON.stringify` gives for the selection `яхта`, `балкер`. -/
def sampleSavedText : String :=
  "\x7b\"selectedClasses\":[\"яхта\",\"балкер\"]\x7d"

end DetectionPage

namespace HistoryPage

/-! ## Page slices and overlapping fetches (`HistoryPage.jsx`) -/

/-- The numbers on the page buttons of a window, in order. -/
def pageNumbers : List PageToken → List Int
  | [] => []
  | .page n :: rest => n :: pageNumbers rest
  | _ :: rest => pageNumbers rest

/-- An index argument of `Array.prototype.slice` made relative to the array: a
negative one counts from the end, and the result is clamped to `0..len`. -/
def sliceIndex (len : Nat) (i : Int) : Nat :=
  if i < 0 then (len + i).toNat else min i.toNat len

/-- The call `xs.slice(start, end)`. -/
def jsSlice {α : Type} (xs : List α) (start stop : Int) : List α :=
  (xs.drop (sliceIndex xs.length start)).take
    (sliceIndex xs.length stop - sliceIndex xs.length start)

/-- The constant `currentData`:
`detections.slice((currentPage - 1) * PAGE_SIZE, currentPage * PAGE_SIZE)`. -/
def currentData (detections : List Detection) (currentPage : Int) : List Detection :=
  jsSlice detections ((currentPage - 1) * (PAGE_SIZE : Int)) (currentPage * (PAGE_SIZE : Int))

/-- The page together with the history requests that wait for an answer,
oldest first, each with the parameters it was sent with. -/
structure FetchSession where
  page : Page
  pending : List (List (String × String))
  deriving DecidableEq, Repr

/-- The start of `fetchDetections` on the page `p`: `setLoading(true)`,
`setError(null)`, then the request with the parameters built from `filters`
joins the waiting ones; if building them throws, the `catch` and `finally`
blocks run at once. -/
def startFetch (p : Page) (pending : List (List (String × String))) : FetchSession :=
  match buildParams p.state.filters with
  | none => { page := { p with state := fetchFailed (fetchStarted p.state) }, pending := pending }
  | some params =>
    { page := { p with state := fetchStarted p.state }, pending := pending ++ [params] }

/-- The render after an update from `before` to `after`: the fetch effect runs
when its dependency `filters` changed identity. -/
def afterUpdate (before after : Page) (pending : List (List (String × String))) :
    FetchSession :=
  if effectDue before after then startFetch after pending
  else { page := after, pending := pending }

/-- The session after the first render, whose effect always runs. -/
def mountedSession : FetchSession :=
  startFetch initialPage []

/-- What can happen to a fetch session: the handlers of the filter panel, and
the answer (`none` for a rejection) to the waiting request at `index`. -/
inductive FetchAction where
  | edit (e : DraftEdit)
  | applyFilters
  | resetFilters
  | settle (index : Nat) (outcome : Option FetchResponse)
  deriving DecidableEq, Repr

/-- The continuation of `fetchDetections` after its `await`, applied to the
state of the moment the answer arrives. -/
def settleFetch (s : HistoryState) : Option FetchResponse → HistoryState
  | some res => fetchSucceeded s res.detections
  | none => fetchFailed s

/-- One transition of a fetch session. An edit whose updater gives no filter
object and an answer for a request that does not wait leave the session as it
is. -/
def dispatchFetch (sess : FetchSession) : FetchAction → FetchSession
  | .edit e =>
    match editDraft sess.page e with
    | some p' => afterUpdate sess.page p' sess.pending
    | none => sess
  | .applyFilters => afterUpdate sess.page (applyFilters sess.page) sess.pending
  | .resetFilters => afterUpdate sess.page (resetFilters sess.page) sess.pending
  | .settle index outcome =>
    if index < sess.pending.length then
      { page := { sess.page with state := settleFetch sess.page.state outcome }
        pending := sess.pending.eraseIdx index }
    else sess

/-- Runs a sequence of actions from a fetch session. -/
def dispatchFetchAll (sess : FetchSession) : List FetchAction → FetchSession
  | [] => sess
  | a :: rest => dispatchFetchAll (dispatchFetch sess a) rest

/-- A sample record with the given id. -/
def sampleDetection (id : Int) : Detection :=
  { id := id, detection_time := "", object_count := 0, object_classes := [],
    input_image_key := "", output_image_key := "", settings_classes := none }

/-- Two commits in a row after the first load: the id filter is set to 1 and
applied, then set to 2 and applied, and neither request is answered yet. -/
def twoCommits : FetchSession :=
  dispatchFetchAll mountedSession
    [.settle 0 (some ⟨some []⟩),
     .edit (.detectionId "1"), .applyFilters,
     .edit (.detectionId "2"), .applyFilters]

end HistoryPage

/-! ## Theorems -/

/-- The loop started at `i` with enough fuel appends the pages `i .. i+fuel-1`
when all of them are at most `totalPages`. -/
theorem pushPages_eq (totalPages : Int) (fuel : Nat) (i : Nat) (pages : List PageToken)
    (h : ((i + fuel : Nat) : Int) ≤ totalPages + 1) :
    pushPages totalPages fuel (i : Int) pages
      = pages ++ (List.range' i fuel).map (fun (k : Nat) => PageToken.page (k : Int)) := by
  induction fuel generalizing i pages with
  | zero => simp [pushPages]
  | succ n ih =>
    have hi : (i : Int) ≤ totalPages := by push_cast at h; omega
    have h2 : (((i + 1) + n : Nat) : Int) ≤ totalPages + 1 := by push_cast at h ⊢; omega
    have := ih (i + 1) (pages ++ [PageToken.page (i : Int)]) h2
    simp only [pushPages, hi, if_true]
    rw [show ((i : Int) + 1) = ((i + 1 : Nat) : Int) by push_cast; rfl, this]
    simp [List.range'_succ]

/-- C1: for every `totalPages ≥ 0` and `currentPage ≥ 1`, `getPaginationItems`
returns the list `1..totalPages` when `totalPages ≤ 7`, otherwise
`[1,2,3,4,5,ellipsis-right,totalPages]` when `currentPage ≤ 4`, otherwise
`[1,ellipsis-left,totalPages-4,…,totalPages]` when `currentPage ≥ totalPages-3`,
otherwise `[1,ellipsis-left,currentPage-1,currentPage,currentPage+1,ellipsis-right,totalPages]`. -/
theorem getPaginationItems_spec (totalPages currentPage : Int)
    (htp : 0 ≤ totalPages) (_hcp : 1 ≤ currentPage) :
    getPaginationItems totalPages currentPage =
      if totalPages ≤ 7 then pagesUpTo totalPages.toNat
      else if currentPage ≤ 4 then
        [.page 1, .page 2, .page 3, .page 4, .page 5, .ellipsisRight, .page totalPages]
      else if currentPage ≥ totalPages - 3 then
        [.page 1, .ellipsisLeft, .page (totalPages - 4), .page (totalPages - 3),
          .page (totalPages - 2), .page (totalPages - 1), .page totalPages]
      else
        [.page 1, .ellipsisLeft, .page (currentPage - 1), .page currentPage,
          .page (currentPage + 1), .ellipsisRight, .page totalPages] := by
  unfold getPaginationItems
  by_cases h7 : totalPages ≤ 7
  · simp only [h7, if_true]
    have h := pushPages_eq totalPages totalPages.toNat 1 [] (by push_cast; omega)
    simpa [pagesUpTo] using h
  · simp only [h7, if_false]
    by_cases h4 : currentPage ≤ 4
    · simp only [h4, if_true]
    · simp only [h4, if_false]
      by_cases hl : currentPage ≥ totalPages - 3
      · simp only [hl, if_true, lastFive]
        simp [List.range_succ]
        refine ⟨?_, ?_, ?_⟩ <;> omega
      · simp only [hl, if_false]

/-- Witness for C1 at the two inputs the specification enumerates. -/
theorem getPaginationItems_spec_witness :
    getPaginationItems 8 1
        = [.page 1, .page 2, .page 3, .page 4, .page 5, .ellipsisRight, .page 8]
      ∧ getPaginationItems 8 8
        = [.page 1, .ellipsisLeft, .page 4, .page 5, .page 6, .page 7, .page 8] := by
  refine ⟨?_, ?_⟩
  · have h := getPaginationItems_spec 8 1 (by decide) (by decide)
    simpa using h
  · have h := getPaginationItems_spec 8 8 (by decide) (by decide)
    simpa using h

/-- C2 as stated fails: at `totalPages = 8`, `currentPage = 5` the test
`currentPage ≥ totalPages - 3` holds, so the window is not
`[1, ellipsis, 4, 5, 6, ellipsis, 8]`; its sixth token is page 7 and it has no
right ellipsis. -/
theorem getPaginationItems_8_5_not_two_ellipses :
    getPaginationItems 8 5
        ≠ [.page 1, .ellipsisLeft, .page 4, .page 5, .page 6, .ellipsisRight, .page 8]
      ∧ (getPaginationItems 8 5)[5]? = some (.page 7)
      ∧ PageToken.ellipsisRight ∉ getPaginationItems 8 5 := by
  decide

/-- C2, amended: for `totalPages = 8` and `currentPage = 5` the window is
`[1, ellipsis, 4, 5, 6, 7, 8]`: seven tokens, with a single ellipsis, on the
left of the current page. -/
theorem getPaginationItems_8_5 :
    getPaginationItems 8 5
        = [.page 1, .ellipsisLeft, .page 4, .page 5, .page 6, .page 7, .page 8]
      ∧ (getPaginationItems 8 5).length = 7 := by
  decide

namespace HistoryPage

/-! ### Query builder -/

theorem jsGet_append {α : Type} (a b : List (String × α)) (k : String) :
    jsGet (a ++ b) k = (jsGet a k).orElse (fun _ => jsGet b k) := by
  induction a with
  | nil => simp [jsGet]
  | cons kv rest ih =>
    obtain ⟨k', v⟩ := kv
    by_cases hk : k' = k <;> simp [jsGet, hk, ih]

theorem jsGet_deleteUndefined_cons (k' : String) (v : Option String)
    (p : List (String × Option String)) (k : String) :
    jsGet (deleteUndefined ((k', v) :: p)) k =
      if k' = k then v.orElse (fun _ => jsGet (deleteUndefined p) k)
      else jsGet (deleteUndefined p) k := by
  cases v <;> by_cases hk : k' = k <;> simp [deleteUndefined, jsGet, hk]

/-- The five scalar parameters after the `undefined` ones are deleted: each key
is present exactly when its value is defined. -/
theorem jsGet_scalars (f : FilterState) (k : String) :
    jsGet (deleteUndefined (initialParams f)) k =
      if k = "start_date" then orUndefined f.dateRange.start
      else if k = "end_date" then orUndefined f.dateRange.end_
      else if k = "min_objects" then orUndefined f.objectCount.min
      else if k = "max_objects" then orUndefined f.objectCount.max
      else if k = "detection_id" then f.detectionId.bind orUndefined
      else none := by
  have hnil : jsGet (deleteUndefined []) k = none := rfl
  simp only [initialParams, jsGet_deleteUndefined_cons, hnil]
  by_cases h1 : k = "start_date"
  · subst h1; simp
  by_cases h2 : k = "end_date"
  · subst h2; simp
  by_cases h3 : k = "min_objects"
  · subst h3; simp
  by_cases h4 : k = "max_objects"
  · subst h4; simp
  by_cases h5 : k = "detection_id"
  · subst h5; simp
  simp [h1, h2, h3, h4, h5, Ne.symm h1, Ne.symm h2, Ne.symm h3, Ne.symm h4, Ne.symm h5]

theorem deleteUndefined_append (p q : List (String × Option String)) :
    deleteUndefined (p ++ q) = deleteUndefined p ++ deleteUndefined q := by
  simp [deleteUndefined, List.filterMap_append]

theorem deleteUndefined_map_some (l : List (String × String)) :
    deleteUndefined (l.map (fun kv => (kv.1, some kv.2))) = l := by
  induction l with
  | nil => rfl
  | cons kv rest ih =>
    simp only [deleteUndefined, List.map_cons, List.filterMap_cons, Option.map_some'] at ih ⊢
    rw [ih]

/-- The loop body in closed form, for a class that has a filter entry. -/
theorem addClassParams_eq (f : FilterState) (params : List (String × Option String))
    (cls : String) (cf : ClassFilter) (h : jsGet f.classFilters cls = some cf) :
    addClassParams f params cls =
      some (jsSet (jsSet params ("min_" ++ templateString (jsGet CLASS_TO_API_KEY cls))
          (some (minParam cf)))
        ("max_" ++ templateString (jsGet CLASS_TO_API_KEY cls)) (some (maxParam cf))) := by
  unfold addClassParams minParam maxParam
  rw [h]
  by_cases he : cf.enabled = true <;> simp [he]

/-- Closed form of the built query: the defined scalar parameters, in the order
of the object literal, followed by the fourteen class parameters. -/
theorem buildParams_closed (f : FilterState) (cf : String → ClassFilter)
    (h : ∀ cls ∈ AVAILABLE_CLASSES, jsGet f.classFilters cls = some (cf cls)) :
    buildParams f = some (deleteUndefined (initialParams f) ++ classEntries cf) := by
  have h1 := h "контейнеровоз" (by simp [AVAILABLE_CLASSES])
  have h2 := h "лайнер" (by simp [AVAILABLE_CLASSES])
  have h3 := h "военный корабль" (by simp [AVAILABLE_CLASSES])
  have h4 := h "рыбацкая лодка" (by simp [AVAILABLE_CLASSES])
  have h5 := h "балкер" (by simp [AVAILABLE_CLASSES])
  have h6 := h "парусное судно" (by simp [AVAILABLE_CLASSES])
  have h7 := h "яхта" (by simp [AVAILABLE_CLASSES])
  have hloop : AVAILABLE_CLASSES.foldlM (addClassParams f) (initialParams f)
      = some (initialParams f ++ (classEntries cf).map (fun kv => (kv.1, some kv.2))) := by
    simp only [AVAILABLE_CLASSES, List.foldlM_cons, List.foldlM_nil,
      addClassParams_eq f _ _ _ h1, addClassParams_eq f _ _ _ h2,
      addClassParams_eq f _ _ _ h3, addClassParams_eq f _ _ _ h4,
      addClassParams_eq f _ _ _ h5, addClassParams_eq f _ _ _ h6,
      addClassParams_eq f _ _ _ h7, Option.bind_eq_bind, Option.some_bind, Option.pure_def]
    simp [initialParams, jsSet, jsGet, CLASS_TO_API_KEY, templateString, classEntries]
  rw [buildParams, hloop, Option.map_some', deleteUndefined_append, deleteUndefined_map_some]

theorem jsGet_eq_none_iff {α : Type} (o : List (String × α)) (k : String) :
    jsGet o k = none ↔ k ∉ jsKeys o := by
  induction o with
  | nil => simp [jsGet, jsKeys]
  | cons kv rest ih =>
    obtain ⟨k', v⟩ := kv
    by_cases hk : k' = k
    · simp [jsGet, jsKeys, hk]
    · have hk' : ¬ k = k' := fun h => hk h.symm
      simpa [jsGet, jsKeys, hk, hk'] using ih

/-- A filter object with all seven entries determines a class-filter function
that agrees with its entries. -/
theorem exists_classFilter_fun (f : FilterState) (hf : HasAllClasses f) :
    ∃ cf : String → ClassFilter,
      ∀ cls ∈ AVAILABLE_CLASSES, jsGet f.classFilters cls = some (cf cls) := by
  refine ⟨fun cls => (jsGet f.classFilters cls).getD ⟨false, "", ""⟩, ?_⟩
  intro cls hcls
  have h := hf cls hcls
  cases hg : jsGet f.classFilters cls with
  | none => simp [hg] at h
  | some v => simp only [hg, Option.getD_some]

/-- The value the built query holds for the two parameters of a class. -/
theorem jsGet_class_params (f : FilterState) (cf : String → ClassFilter) (cls : String)
    (hcls : cls ∈ AVAILABLE_CLASSES) :
    ∃ key, jsGet CLASS_TO_API_KEY cls = some key
      ∧ jsGet (deleteUndefined (initialParams f) ++ classEntries cf) ("min_" ++ key)
          = some (minParam (cf cls))
      ∧ jsGet (deleteUndefined (initialParams f) ++ classEntries cf) ("max_" ++ key)
          = some (maxParam (cf cls)) := by
  simp only [AVAILABLE_CLASSES, List.mem_cons, List.mem_singleton, List.not_mem_nil,
    or_false] at hcls
  rcases hcls with h | h | h | h | h | h | h <;> subst h <;>
    simp [CLASS_TO_API_KEY, jsGet, jsGet_append, jsGet_scalars, classEntries]

theorem foldlM_addClassParams_none (f : FilterState) (cls : String)
    (hmiss : jsGet f.classFilters cls = none) (l : List String) (hmem : cls ∈ l)
    (params : List (String × Option String)) :
    l.foldlM (addClassParams f) params = none := by
  induction l generalizing params with
  | nil => simp at hmem
  | cons c rest ih =>
    simp only [List.foldlM_cons, Option.bind_eq_bind]
    cases hstep : addClassParams f params c with
    | none => rfl
    | some params' =>
      rcases List.mem_cons.mp hmem with h | h
      · subst h
        simp [addClassParams, hmiss] at hstep
      · simpa using ih h params'

/-- The parameters are built without a `TypeError` exactly for the filter
objects that have an entry for each of the seven classes; the filter objects of
the page (`defaultFilters` and its edits) are of this kind. -/
theorem buildParams_isSome_iff (f : FilterState) :
    (buildParams f).isSome = true ↔ HasAllClasses f := by
  constructor
  · intro h cls hcls
    cases hg : jsGet f.classFilters cls with
    | some v => rfl
    | none =>
      have := foldlM_addClassParams_none f cls hg AVAILABLE_CLASSES hcls (initialParams f)
      simp [buildParams, this] at h
  · intro hf
    obtain ⟨cf, hcf⟩ := exists_classFilter_fun f hf
    rw [buildParams_closed f cf hcf]
    rfl

theorem defaultFilters_hasAllClasses : HasAllClasses defaultFilters := by
  decide

/-- C3: for every filter object and every one of the seven classes whose filter
has `enabled = false`, the built query has `min_<apiKey> = '0'` and
`max_<apiKey> = '0'` for that class, whatever `min` and `max` it stores. -/
theorem buildParams_disabled_class (f : FilterState) (hf : HasAllClasses f)
    (cls : String) (hcls : cls ∈ AVAILABLE_CLASSES) (c : ClassFilter)
    (hc : jsGet f.classFilters cls = some c) (hd : c.enabled = false) :
    ∃ key q, jsGet CLASS_TO_API_KEY cls = some key ∧ buildParams f = some q
      ∧ jsGet q ("min_" ++ key) = some "0" ∧ jsGet q ("max_" ++ key) = some "0" := by
  obtain ⟨cf, hcf⟩ := exists_classFilter_fun f hf
  obtain ⟨key, hkey, hmin, hmax⟩ := jsGet_class_params f cf cls hcls
  have hcc : cf cls = c := by
    have := hcf cls hcls
    rw [hc] at this
    exact (Option.some.inj this).symm
  refine ⟨key, _, hkey, buildParams_closed f cf hcf, ?_, ?_⟩
  · rw [hmin, hcc]; simp [minParam, hd]
  · rw [hmax, hcc]; simp [maxParam, hd]

/-- C4: for every filter object and every class whose filter has
`enabled = true`, the built query has `min_<apiKey>` equal to `'0'` when the
stored `min` is blank and to the stored `min` otherwise, and `max_<apiKey>`
equal to `'1000'` when the stored `max` is blank and to the stored `max`
otherwise; with both bounds blank this is `min = 0`, `max = 1000`. -/
theorem buildParams_enabled_class (f : FilterState) (hf : HasAllClasses f)
    (cls : String) (hcls : cls ∈ AVAILABLE_CLASSES) (c : ClassFilter)
    (hc : jsGet f.classFilters cls = some c) (he : c.enabled = true) :
    ∃ key q, jsGet CLASS_TO_API_KEY cls = some key ∧ buildParams f = some q
      ∧ jsGet q ("min_" ++ key) = some (if c.min = "" then "0" else c.min)
      ∧ jsGet q ("max_" ++ key) = some (if c.max = "" then "1000" else c.max)
      ∧ (c.min = "" → c.max = "" →
          jsGet q ("min_" ++ key) = some "0" ∧ jsGet q ("max_" ++ key) = some "1000") := by
  obtain ⟨cf, hcf⟩ := exists_classFilter_fun f hf
  obtain ⟨key, hkey, hmin, hmax⟩ := jsGet_class_params f cf cls hcls
  have hcc : cf cls = c := by
    have := hcf cls hcls
    rw [hc] at this
    exact (Option.some.inj this).symm
  have h1 : jsGet (deleteUndefined (initialParams f) ++ classEntries cf) ("min_" ++ key)
      = some (if c.min = "" then "0" else c.min) := by
    rw [hmin, hcc]; simp [minParam, he]
  have h2 : jsGet (deleteUndefined (initialParams f) ++ classEntries cf) ("max_" ++ key)
      = some (if c.max = "" then "1000" else c.max) := by
    rw [hmax, hcc]; simp [maxParam, he]
  refine ⟨key, _, hkey, buildParams_closed f cf hcf, h1, h2, ?_⟩
  intro hmn hmx
  rw [h1, h2]
  simp [hmn, hmx]

theorem jsKeys_deleteUndefined_sublist (p : List (String × Option String)) :
    (jsKeys (deleteUndefined p)).Sublist (jsKeys p) := by
  induction p with
  | nil => simp [jsKeys, deleteUndefined]
  | cons kv rest ih =>
    obtain ⟨k, v⟩ := kv
    cases v with
    | none =>
      simpa [jsKeys, deleteUndefined] using List.Sublist.cons k ih
    | some x =>
      simpa [jsKeys, deleteUndefined] using ih

/-- No class parameter carries a scalar parameter name. -/
theorem jsGet_classEntries_scalar (cf : String → ClassFilter) (k : String)
    (hk : k ∈ scalarParamNames) : jsGet (classEntries cf) k = none := by
  simp only [scalarParamNames, List.mem_cons, List.mem_singleton, List.not_mem_nil,
    or_false] at hk
  rcases hk with h | h | h | h | h <;> subst h <;> simp [classEntries, jsGet]

/-- Witness for C3: liners switched off with stored bounds 3 and 9. -/
theorem buildParams_disabled_class_witness :
    ∃ key q, jsGet CLASS_TO_API_KEY "лайнер" = some key ∧ buildParams sampleFilters = some q
      ∧ jsGet q ("min_" ++ key) = some "0" ∧ jsGet q ("max_" ++ key) = some "0" :=
  buildParams_disabled_class sampleFilters (by decide) "лайнер" (by decide)
    { enabled := false, min := "3", max := "9" } (by decide) rfl

/-- Witness for C4: warships enabled with `min = 2` and a blank `max`. -/
theorem buildParams_enabled_class_witness :
    ∃ key q, jsGet CLASS_TO_API_KEY "военный корабль" = some key
      ∧ buildParams sampleFilters = some q
      ∧ jsGet q ("min_" ++ key) = some "2"
      ∧ jsGet q ("max_" ++ key) = some "1000" := by
  obtain ⟨key, q, h1, h2, h3, h4, _⟩ :=
    buildParams_enabled_class sampleFilters (by decide) "военный корабль" (by decide)
      { enabled := true, min := "2", max := "" } (by decide) rfl
  exact ⟨key, q, h1, h2, by simpa using h3, by simpa using h4⟩

/-- C5: each of the five scalar fields (`detectionId → detection_id`,
`dateRange.start → start_date`, `dateRange.end → end_date`,
`objectCount.min → min_objects`, `objectCount.max → max_objects`) is in the
built query with its value unchanged exactly when it is non-blank; a blank
field leaves no key at all. -/
theorem buildParams_scalars (f : FilterState) (hf : HasAllClasses f) :
    ∃ q, buildParams f = some q
      ∧ jsGet q "detection_id"
          = (match f.detectionId with
             | some v => if v = "" then none else some v
             | none => none)
      ∧ jsGet q "start_date" = (if f.dateRange.start = "" then none else some f.dateRange.start)
      ∧ jsGet q "end_date" = (if f.dateRange.end_ = "" then none else some f.dateRange.end_)
      ∧ jsGet q "min_objects" = (if f.objectCount.min = "" then none else some f.objectCount.min)
      ∧ jsGet q "max_objects" = (if f.objectCount.max = "" then none else some f.objectCount.max)
      ∧ ("detection_id" ∈ jsKeys q ↔ ∃ v, f.detectionId = some v ∧ v ≠ "")
      ∧ ("start_date" ∈ jsKeys q ↔ f.dateRange.start ≠ "")
      ∧ ("end_date" ∈ jsKeys q ↔ f.dateRange.end_ ≠ "")
      ∧ ("min_objects" ∈ jsKeys q ↔ f.objectCount.min ≠ "")
      ∧ ("max_objects" ∈ jsKeys q ↔ f.objectCount.max ≠ "") := by
  obtain ⟨cf, hcf⟩ := exists_classFilter_fun f hf
  have hq := buildParams_closed f cf hcf
  have hcls : ∀ k ∈ scalarParamNames, jsGet (classEntries cf) k = none :=
    jsGet_classEntries_scalar cf
  have hget : ∀ k ∈ scalarParamNames,
      jsGet (deleteUndefined (initialParams f) ++ classEntries cf) k
        = jsGet (deleteUndefined (initialParams f)) k := by
    intro k hk
    rw [jsGet_append, hcls k hk]
    cases jsGet (deleteUndefined (initialParams f)) k <;> rfl
  have e1 := hget "detection_id" (by simp [scalarParamNames])
  have e2 := hget "start_date" (by simp [scalarParamNames])
  have e3 := hget "end_date" (by simp [scalarParamNames])
  have e4 := hget "min_objects" (by simp [scalarParamNames])
  have e5 := hget "max_objects" (by simp [scalarParamNames])
  rw [jsGet_scalars] at e1 e2 e3 e4 e5
  simp only [String.reduceEq, if_true, if_false, reduceIte] at e1 e2 e3 e4 e5
  have d1 : jsGet (deleteUndefined (initialParams f) ++ classEntries cf) "detection_id"
      = (match f.detectionId with
         | some v => if v = "" then none else some v
         | none => none) := by
    rw [e1]; cases f.detectionId <;> simp [orUndefined]
  refine ⟨_, hq, d1, e2, e3, e4, e5, ?_, ?_, ?_, ?_, ?_⟩
  · rw [← not_iff_not, ← jsGet_eq_none_iff, d1]
    cases f.detectionId with
    | none => simp
    | some v => by_cases hv : v = "" <;> simp [hv]
  · rw [← not_iff_not, ← jsGet_eq_none_iff, e2]; simp [orUndefined]
  · rw [← not_iff_not, ← jsGet_eq_none_iff, e3]; simp [orUndefined]
  · rw [← not_iff_not, ← jsGet_eq_none_iff, e4]; simp [orUndefined]
  · rw [← not_iff_not, ← jsGet_eq_none_iff, e5]; simp [orUndefined]

/-- Witness for C5: id, start date and maximum count given, the other two
blank. -/
theorem buildParams_scalars_witness :
    ∃ q, buildParams sampleFilters = some q
      ∧ jsGet q "detection_id" = some "42"
      ∧ jsGet q "start_date" = some "2024-05-01T10:00"
      ∧ jsGet q "end_date" = none
      ∧ jsGet q "min_objects" = none
      ∧ jsGet q "max_objects" = some "5"
      ∧ "end_date" ∉ jsKeys q ∧ "min_objects" ∉ jsKeys q := by
  obtain ⟨q, hq, h1, h2, h3, h4, h5, _, _, k3, k4, _⟩ :=
    buildParams_scalars sampleFilters (by decide)
  refine ⟨q, hq, by simpa [sampleFilters] using h1, by simpa [sampleFilters] using h2,
    by simpa [sampleFilters] using h3, by simpa [sampleFilters] using h4,
    by simpa [sampleFilters] using h5, ?_, ?_⟩
  · rw [k3]; simp [sampleFilters]
  · rw [k4]; simp [sampleFilters]

/-- C6: when only `detectionId` is non-blank and all seven classes are enabled
with blank bounds, the built query is exactly fifteen parameters:
`detection_id` with the given id, then `min_<apiKey> = '0'` and
`max_<apiKey> = '1000'` for each class. -/
theorem buildParams_id_only (f : FilterState) (id : String) (hid : id ≠ "")
    (hdet : f.detectionId = some id)
    (hdate : f.dateRange = { start := "", end_ := "" })
    (hcount : f.objectCount = { min := "", max := "" })
    (hcls : ∀ cls ∈ AVAILABLE_CLASSES,
      jsGet f.classFilters cls = some { enabled := true, min := "", max := "" }) :
    buildParams f = some
      [("detection_id", id),
       ("min_container_ship", "0"), ("max_container_ship", "1000"),
       ("min_liner", "0"), ("max_liner", "1000"),
       ("min_warship", "0"), ("max_warship", "1000"),
       ("min_fishing_boat", "0"), ("max_fishing_boat", "1000"),
       ("min_bulk_carrier", "0"), ("max_bulk_carrier", "1000"),
       ("min_sailboat", "0"), ("max_sailboat", "1000"),
       ("min_canoe", "0"), ("max_canoe", "1000")]
    ∧ ∀ q, buildParams f = some q → q.length = 15 := by
  have hq := buildParams_closed f (fun _ => { enabled := true, min := "", max := "" }) hcls
  have hs : deleteUndefined (initialParams f) = [("detection_id", id)] := by
    simp [deleteUndefined, initialParams, hdet, hdate, hcount, orUndefined, hid]
  rw [hs] at hq
  have hq' : buildParams f = some
      [("detection_id", id),
       ("min_container_ship", "0"), ("max_container_ship", "1000"),
       ("min_liner", "0"), ("max_liner", "1000"),
       ("min_warship", "0"), ("max_warship", "1000"),
       ("min_fishing_boat", "0"), ("max_fishing_boat", "1000"),
       ("min_bulk_carrier", "0"), ("max_bulk_carrier", "1000"),
       ("min_sailboat", "0"), ("max_sailboat", "1000"),
       ("min_canoe", "0"), ("max_canoe", "1000")] := by
    rw [hq]; simp [classEntries, minParam, maxParam]
  refine ⟨hq', ?_⟩
  intro q hqq
  rw [hq'] at hqq
  rw [← Option.some.inj hqq]
  rfl

/-- Witness for C6: the default filters with `detectionId = "42"`. -/
theorem buildParams_id_only_witness :
    buildParams { defaultFilters with detectionId := some "42" } = some
      [("detection_id", "42"),
       ("min_container_ship", "0"), ("max_container_ship", "1000"),
       ("min_liner", "0"), ("max_liner", "1000"),
       ("min_warship", "0"), ("max_warship", "1000"),
       ("min_fishing_boat", "0"), ("max_fishing_boat", "1000"),
       ("min_bulk_carrier", "0"), ("max_bulk_carrier", "1000"),
       ("min_sailboat", "0"), ("max_sailboat", "1000"),
       ("min_canoe", "0"), ("max_canoe", "1000")] :=
  (buildParams_id_only { defaultFilters with detectionId := some "42" } "42" (by decide) rfl
    rfl rfl (by decide)).1

/-- C7: `CLASS_TO_API_KEY` is defined on every class of `AVAILABLE_CLASSES` and
injective on them; the fourteen names `min_<apiKey>` / `max_<apiKey>` and the
five scalar names are pairwise distinct; hence in every built query the class
loop only appends: the keys are the defined scalar names followed by the
fourteen class names, without repetition. -/
theorem param_names_collision_free :
    (∀ cls ∈ AVAILABLE_CLASSES, (jsGet CLASS_TO_API_KEY cls).isSome = true)
      ∧ (∀ a ∈ AVAILABLE_CLASSES, ∀ b ∈ AVAILABLE_CLASSES,
          jsGet CLASS_TO_API_KEY a = jsGet CLASS_TO_API_KEY b → a = b)
      ∧ classParamNames.length = 14
      ∧ (scalarParamNames ++ classParamNames).Nodup
      ∧ (∀ f : FilterState, HasAllClasses f →
          ∃ q, buildParams f = some q
            ∧ jsKeys q = jsKeys (deleteUndefined (initialParams f)) ++ classParamNames
            ∧ (jsKeys q).Nodup
            ∧ (∀ k ∈ scalarParamNames,
                jsGet q k = jsGet (deleteUndefined (initialParams f)) k)) := by
  refine ⟨by decide, by decide, by decide, by decide, ?_⟩
  intro f hf
  obtain ⟨cf, hcf⟩ := exists_classFilter_fun f hf
  have hkeys : jsKeys (deleteUndefined (initialParams f) ++ classEntries cf)
      = jsKeys (deleteUndefined (initialParams f)) ++ classParamNames := by
    simp only [jsKeys, List.map_append]
    rfl
  refine ⟨_, buildParams_closed f cf hcf, hkeys, ?_, ?_⟩
  · rw [hkeys]
    have hsub : (jsKeys (deleteUndefined (initialParams f)) ++ classParamNames).Sublist
        (scalarParamNames ++ classParamNames) :=
      List.Sublist.append_right (jsKeys_deleteUndefined_sublist (initialParams f)) _
    exact hsub.nodup (by decide)
  · intro k hk
    rw [jsGet_append, jsGet_classEntries_scalar cf k hk]
    cases jsGet (deleteUndefined (initialParams f)) k <;> rfl

/-- Witness for C7: the keys of the query built from the sample filters. -/
theorem param_names_collision_free_witness :
    ∃ q, buildParams sampleFilters = some q
      ∧ jsKeys q = ["start_date", "max_objects", "detection_id"] ++ classParamNames
      ∧ (jsKeys q).Nodup := by
  obtain ⟨q, hq, hk, hn, _⟩ := param_names_collision_free.2.2.2.2 sampleFilters (by decide)
  refine ⟨q, hq, ?_, hn⟩
  rw [hk]
  rfl

/-! ### Page navigation -/

/-- The value `totalPages` is the ceiling of `length / PAGE_SIZE` over the rationals. -/
theorem totalPages_eq_ceil (detections : List Detection) :
    totalPages detections = ⌈((detections.length : ℚ) / (PAGE_SIZE : ℚ))⌉ := by
  symm
  rw [Int.ceil_eq_iff]
  simp only [totalPages, PAGE_SIZE]
  have h1 : ((((detections.length + (10 - 1)) / 10 : Nat) : Int) : ℚ)
      = (((detections.length + 9) / 10 : Nat) : ℚ) := by push_cast; rfl
  rw [h1]
  have hd := Nat.div_add_mod (detections.length + 9) 10
  have hm := Nat.mod_lt (detections.length + 9) (by decide : 10 > 0)
  set q := (detections.length + 9) / 10 with hq
  have hlo : 10 * q < detections.length + 10 := by omega
  have hhi : detections.length ≤ 10 * q := by omega
  have hlo' : (10 : ℚ) * (q : ℚ) < (detections.length : ℚ) + 10 := by exact_mod_cast hlo
  have hhi' : (detections.length : ℚ) ≤ 10 * (q : ℚ) := by exact_mod_cast hhi
  constructor
  · rw [lt_div_iff₀ (by norm_num : (0 : ℚ) < ((10 : Nat) : ℚ))]
    push_cast
    linarith
  · rw [div_le_iff₀ (by norm_num : (0 : ℚ) < ((10 : Nat) : ℚ))]
    push_cast
    linarith

/-- C10: at the failing input. After a fetch that returns no records the
invariant holds (`currentPage = 1`, `totalPages = 0`), the "next" button is
enabled because `1 !== 0`, and its handler `Math.min(p + 1, totalPages)` sets
`currentPage` to 0, outside `[1, max(1, 0)]`. -/
theorem clickNext_on_empty_breaks_invariant :
    run initialState [.fetchStart, .fetchSuccess (some [])]
        = some { initialState with currentPage := 1 }
      ∧ PageInvariant { initialState with currentPage := 1 }
      ∧ totalPages initialState.detections = 0
      ∧ step { initialState with currentPage := 1 } .clickNext
          = some { initialState with currentPage := 0 }
      ∧ ¬ PageInvariant { initialState with currentPage := 0 } := by
  decide

/-- Every page button of the window shows a page between 1 and `totalPages`. -/
theorem page_mem_getPaginationItems (tp cp n : Int)
    (h : PageToken.page n ∈ getPaginationItems tp cp) : 1 ≤ n ∧ n ≤ tp := by
  unfold getPaginationItems at h
  by_cases h7 : tp ≤ 7
  · simp only [h7, if_true] at h
    by_cases h0 : 0 ≤ tp
    · have he := pushPages_eq tp tp.toNat 1 [] (by push_cast; omega)
      simp only [Nat.cast_one] at he
      rw [he] at h
      simp only [List.nil_append, List.mem_map, List.mem_range'_1] at h
      obtain ⟨k, ⟨hk1, hk2⟩, hk⟩ := h
      have : (k : Int) = n := by injection hk
      omega
    · have : tp.toNat = 0 := by omega
      rw [this] at h
      simp [pushPages] at h
  · simp only [h7, if_false] at h
    by_cases h4 : cp ≤ 4
    · simp only [h4, if_true, List.mem_cons, PageToken.page.injEq, List.mem_singleton,
        List.not_mem_nil, or_false, false_or, reduceCtorEq] at h
      omega
    · simp only [h4, if_false] at h
      by_cases hl : cp ≥ tp - 3
      · simp [hl, lastFive, List.range_succ] at h
        omega
      · simp only [hl, if_false, List.mem_cons, PageToken.page.injEq, List.mem_singleton,
          List.not_mem_nil, or_false, false_or, reduceCtorEq] at h
        omega

theorem totalPages_nonneg (detections : List Detection) : 0 ≤ totalPages detections := by
  unfold totalPages
  exact Int.natCast_nonneg _

theorem totalPages_pos (detections : List Detection) (h : detections ≠ []) :
    1 ≤ totalPages detections := by
  unfold totalPages PAGE_SIZE
  have : 0 < detections.length := List.length_pos.mpr h
  have : 1 ≤ (detections.length + (10 - 1)) / 10 := by omega
  exact_mod_cast this

/-- Every step keeps the invariant, except "next" on an empty dataset: a fetch
resets the page to 1, "previous" is clamped below by 1, a page button shows a
page of the window, and "next" is clamped above by `totalPages ≥ 1`. -/
theorem step_preserves_invariant (s s' : HistoryState) (e : Event)
    (hinv : PageInvariant s) (hstep : step s e = some s')
    (hne : e = .clickNext → s.detections ≠ []) : PageInvariant s' := by
  obtain ⟨h1, h2⟩ := hinv
  cases e with
  | fetchStart =>
    simp only [step, fetchStarted, Option.some.injEq] at hstep
    subst hstep
    exact ⟨h1, h2⟩
  | fetchSuccess d =>
    simp only [step, fetchSucceeded, Option.some.injEq] at hstep
    subst hstep
    exact ⟨le_refl _, le_max_left _ _⟩
  | fetchFailure =>
    simp only [step, fetchFailed, Option.some.injEq] at hstep
    subst hstep
    exact ⟨h1, h2⟩
  | clickPrev =>
    simp only [step] at hstep
    split_ifs at hstep
    simp only [Option.some.injEq] at hstep
    subst hstep
    refine ⟨le_max_right _ _, ?_⟩
    show max (s.currentPage - 1) 1 ≤ max 1 (totalPages s.detections)
    omega
  | clickNext =>
    have hpos := totalPages_pos s.detections (hne rfl)
    simp only [step] at hstep
    split_ifs at hstep
    simp only [Option.some.injEq] at hstep
    subst hstep
    show 1 ≤ min (s.currentPage + 1) (totalPages s.detections)
      ∧ min (s.currentPage + 1) (totalPages s.detections) ≤ max 1 (totalPages s.detections)
    omega
  | clickPage token =>
    cases token with
    | page n =>
      simp only [step] at hstep
      split_ifs at hstep with hg
      simp only [Option.some.injEq] at hstep
      subst hstep
      simp only [Bool.and_eq_true, decide_eq_true_eq] at hg
      have hb := page_mem_getPaginationItems _ _ _ hg.2
      show 1 ≤ n ∧ n ≤ max 1 (totalPages s.detections)
      omega
    | ellipsisLeft => simp [step] at hstep
    | ellipsisRight => simp [step] at hstep

/-- An instance of the preservation lemma: "next" on a dataset of eleven
records moves from page 1 to page 2 of 2. -/
theorem step_preserves_invariant_example :
    PageInvariant
      { initialState with
        detections := List.replicate 11 ⟨1, "", 0, [], "", "", none⟩, currentPage := 2 } :=
  step_preserves_invariant
    { initialState with detections := List.replicate 11 ⟨1, "", 0, [], "", "", none⟩ }
    _ .clickNext (by decide) (by decide) (by decide)

end HistoryPage

namespace DetectionPage

/-! ### Settings store -/

theorem filterMap_knownClass_str (labels : List String) :
    (labels.map Json.str).filterMap knownClass
      = labels.filter (fun l => decide (l ∈ AVAILABLE_CLASSES)) := by
  induction labels with
  | nil => rfl
  | cons l rest ih =>
    by_cases hl : l ∈ AVAILABLE_CLASSES
    · simp only [List.map_cons, List.filterMap_cons, knownClass, hl, if_true, ih,
        List.filter_cons, decide_True]
    · simp only [List.map_cons, List.filterMap_cons, knownClass, hl, if_false, ih,
        List.filter_cons, decide_False, Bool.false_eq_true]

/-- C8: when the stored value parses to an object whose `selectedClasses` is an
array of labels, `loadSettings` returns exactly the known labels of that array,
in order: every returned label is a known class, every known label of the
array is returned, unknown ones are dropped, and the result is empty when no
stored label is known. -/
theorem loadSettings_known_subset (parse : String → Option Json) (saved : String)
    (props : List (String × Json)) (labels : List String)
    (hsaved : saved ≠ "") (hparse : parse saved = some (.obj props))
    (hsel : jsGet props "selectedClasses" = some (.arr (labels.map Json.str))) :
    loadSettings parse (some saved)
        = labels.filter (fun l => decide (l ∈ AVAILABLE_CLASSES))
      ∧ (∀ l ∈ loadSettings parse (some saved), l ∈ AVAILABLE_CLASSES ∧ l ∈ labels)
      ∧ (∀ l ∈ labels, l ∈ AVAILABLE_CLASSES → l ∈ loadSettings parse (some saved))
      ∧ (∀ l ∈ labels, l ∉ AVAILABLE_CLASSES → l ∉ loadSettings parse (some saved))
      ∧ ((∀ l ∈ labels, l ∉ AVAILABLE_CLASSES) → loadSettings parse (some saved) = []) := by
  have h : loadSettings parse (some saved)
      = labels.filter (fun l => decide (l ∈ AVAILABLE_CLASSES)) := by
    simp only [loadSettings, loadSettingsTry, hsaved, if_false, hparse, hsel,
      filterMap_knownClass_str]
  rw [h]
  refine ⟨rfl, ?_, ?_, ?_, ?_⟩
  · intro l hl
    simp only [List.mem_filter, decide_eq_true_eq] at hl
    exact ⟨hl.2, hl.1⟩
  · intro l hl hk
    simp only [List.mem_filter, decide_eq_true_eq]
    exact ⟨hl, hk⟩
  · intro l _ hk hmem
    simp only [List.mem_filter, decide_eq_true_eq] at hmem
    exact hk hmem.2
  · intro hall
    rw [List.filter_eq_nil_iff]
    intro l hl
    simpa using hall l hl

/-- Witness for C8: the unknown label is dropped, order and repetition kept. -/
theorem loadSettings_known_subset_witness :
    loadSettings (fun _ => some sampleStored) (some "saved") = ["яхта", "балкер", "яхта"] := by
  have h := (loadSettings_known_subset (fun _ => some sampleStored) "saved" _
    ["яхта", "подводная лодка", "балкер", "яхта"] (by decide) rfl rfl).1
  rw [h]
  decide

/-- C9: `loadSettings` always returns a list, and it is the list of all seven
known classes whenever the stored value is absent or empty, does not parse,
parses to `null` or to something that is not a plain object, or parses to an
object without an array-valued `selectedClasses`. -/
theorem loadSettings_fallback (parse : String → Option Json) (stored : Option String)
    (h : stored = none ∨ stored = some ""
      ∨ ∃ saved, stored = some saved
          ∧ (parse saved = none
            ∨ parse saved = some .null
            ∨ (∃ v, parse saved = some v ∧ v.isObj = false)
            ∨ (∃ props, parse saved = some (.obj props)
                ∧ ∀ v, jsGet props "selectedClasses" = some v → v.isArr = false))) :
    loadSettings parse stored = AVAILABLE_CLASSES ∧ (loadSettings parse stored).length = 7 := by
  have key : loadSettings parse stored = AVAILABLE_CLASSES := by
    rcases h with h | h | ⟨saved, hs, h⟩
    · subst h; rfl
    · subst h; rfl
    · subst hs
      by_cases he : saved = ""
      · simp [loadSettings, loadSettingsTry, he]
      · rcases h with h | h | ⟨v, hv, hobj⟩ | ⟨props, hp, hsel⟩
        · simp [loadSettings, loadSettingsTry, he, h]
        · simp [loadSettings, loadSettingsTry, he, h]
        · cases v <;> simp_all [loadSettings, loadSettingsTry, Json.isObj]
        · cases hg : jsGet props "selectedClasses" with
          | none => simp [loadSettings, loadSettingsTry, he, hp, hg]
          | some v =>
            have := hsel v hg
            cases v <;> simp_all [loadSettings, loadSettingsTry, Json.isArr]
  rw [key]
  exact ⟨rfl, rfl⟩

/-- Witness for C9: a stored text that `JSON.parse` rejects. -/
theorem loadSettings_fallback_witness :
    loadSettings (fun _ => none) (some "not json") = AVAILABLE_CLASSES :=
  (loadSettings_fallback (fun _ => none) (some "not json")
    (Or.inr (Or.inr ⟨"not json", rfl, Or.inl rfl⟩))).1

end DetectionPage


namespace HistoryPage

/-! ### Fetching -/

/-- A call of `fetchDetections` that is answered with nothing happening in
between replaces the dataset with the response's `detections` list (the empty
list when the field is missing), sets `currentPage` to 1, and ends with
`loading = false` and with the `error` it cleared at its start still `null`. -/
theorem fetchDetections_success (get : List (String × String) → Option FetchResponse)
    (s : HistoryState) (params : List (String × String)) (res : FetchResponse)
    (hparams : buildParams s.filters = some params) (hget : get params = some res) :
    (fetchDetections get s).detections = res.detections.getD []
      ∧ (res.detections = none → (fetchDetections get s).detections = [])
      ∧ (∀ ds, res.detections = some ds → (fetchDetections get s).detections = ds)
      ∧ (fetchDetections get s).currentPage = 1
      ∧ (fetchDetections get s).loading = false
      ∧ (fetchDetections get s).error = none := by
  have h : fetchDetections get s = fetchSucceeded (fetchStarted s) res.detections := by
    simp only [fetchDetections, hparams, hget]
  rw [h]
  refine ⟨rfl, ?_, ?_, rfl, rfl, rfl⟩
  · intro hn
    simp [fetchSucceeded, hn]
  · intro ds hd
    simp [fetchSucceeded, hd]

/-- An instance of the uninterrupted call: a response without a `detections`
field, on page 3 of a stale dataset with an old error showing. -/
theorem fetchDetections_success_witness :
    (fetchDetections (fun _ => some ⟨none⟩) staleState).detections = []
      ∧ (fetchDetections (fun _ => some ⟨none⟩) staleState).currentPage = 1
      ∧ (fetchDetections (fun _ => some ⟨none⟩) staleState).loading = false
      ∧ (fetchDetections (fun _ => some ⟨none⟩) staleState).error = none := by
  obtain ⟨_, h2, _, h4, h5, h6⟩ :=
    fetchDetections_success (fun _ => some ⟨none⟩) staleState
      ((buildParams staleState.filters).getD []) ⟨none⟩ (by decide) rfl
  exact ⟨h2 rfl, h4, h5, h6⟩

/-- C11 as stated fails: a successful fetch can end with `error` set. Two
commits leave two requests waiting; the first is rejected, which sets the
error; the second is answered with record 20. The dataset is replaced, the
page is 1 and `loading = false`, but nothing after the `await` clears the
error, so it is still the message of the failed request. -/
theorem success_after_failure_keeps_error :
    twoCommits.pending.length = 2
      ∧ (dispatchFetchAll twoCommits
          [.settle 0 none, .settle 0 (some ⟨some [sampleDetection 20]⟩)]).page.state.detections
        = [sampleDetection 20]
      ∧ (dispatchFetchAll twoCommits
          [.settle 0 none, .settle 0 (some ⟨some [sampleDetection 20]⟩)]).page.state.currentPage
        = 1
      ∧ (dispatchFetchAll twoCommits
          [.settle 0 none, .settle 0 (some ⟨some [sampleDetection 20]⟩)]).page.state.loading
        = false
      ∧ (dispatchFetchAll twoCommits
          [.settle 0 none, .settle 0 (some ⟨some [sampleDetection 20]⟩)]).page.state.error
        = some "Ошибка загрузки данных"
      ∧ (dispatchFetchAll twoCommits
          [.settle 0 none, .settle 0 (some ⟨some [sampleDetection 20]⟩)]).page.state.error
        ≠ none := by
  decide

/-- C11, amended: for every state and every successful fetch response,
`fetchDetections` replaces the dataset with the response's `detections` list
(the empty list when the field is missing), sets `currentPage` to 1 and ends
with `loading = false`; `error` is left as it is when the response arrives. It
is `null` when the call ran with no other fetch in between, since the call
clears it at its start. -/
theorem settle_success (sess : FetchSession) (index : Nat) (res : FetchResponse)
    (hwait : index < sess.pending.length) :
    (dispatchFetch sess (.settle index (some res))).page.state.detections
        = res.detections.getD []
      ∧ (res.detections = none →
          (dispatchFetch sess (.settle index (some res))).page.state.detections = [])
      ∧ (∀ ds, res.detections = some ds →
          (dispatchFetch sess (.settle index (some res))).page.state.detections = ds)
      ∧ (dispatchFetch sess (.settle index (some res))).page.state.currentPage = 1
      ∧ (dispatchFetch sess (.settle index (some res))).page.state.loading = false
      ∧ (dispatchFetch sess (.settle index (some res))).page.state.error
          = sess.page.state.error
      ∧ (∀ (get : List (String × String) → Option FetchResponse) (s : HistoryState)
            (params : List (String × String)),
          buildParams s.filters = some params → get params = some res →
            (fetchDetections get s).detections = res.detections.getD []
              ∧ (fetchDetections get s).currentPage = 1
              ∧ (fetchDetections get s).loading = false
              ∧ (fetchDetections get s).error = none) := by
  have h : (dispatchFetch sess (.settle index (some res))).page.state
      = fetchSucceeded sess.page.state res.detections := by
    simp only [dispatchFetch, hwait, if_true, settleFetch]
  rw [h]
  refine ⟨rfl, ?_, ?_, rfl, rfl, rfl, ?_⟩
  · intro hn
    simp [fetchSucceeded, hn]
  · intro ds hd
    simp [fetchSucceeded, hd]
  · intro get s params hparams hget
    obtain ⟨h1, _, _, h4, h5, h6⟩ := fetchDetections_success get s params res hparams hget
    exact ⟨h1, h4, h5, h6⟩

/-- Witness for C11, amended: of the two waiting requests the second is
answered, with a response that has no `detections` field. -/
theorem settle_success_witness :
    (dispatchFetch twoCommits (.settle 1 (some ⟨none⟩))).page.state.detections = []
      ∧ (dispatchFetch twoCommits (.settle 1 (some ⟨none⟩))).page.state.currentPage = 1
      ∧ (dispatchFetch twoCommits (.settle 1 (some ⟨none⟩))).page.state.loading = false
      ∧ (dispatchFetch twoCommits (.settle 1 (some ⟨none⟩))).page.state.error
          = twoCommits.page.state.error := by
  obtain ⟨_, h2, _, h4, h5, h6, _⟩ := settle_success twoCommits 1 ⟨none⟩ (by decide)
  exact ⟨h2 rfl, h4, h5, h6⟩

/-- C12: when the fetch fails (the request is rejected, or building the
parameters throws), `fetchDetections` leaves `detections` and `currentPage` as
they were, sets `error` to a non-empty message, ends with `loading = false`,
and leaves the applied and the draft filters unchanged. -/
theorem fetchDetections_failure (get : List (String × String) → Option FetchResponse)
    (s : HistoryState) (hfail : (buildParams s.filters).bind get = none) :
    (fetchDetections get s).detections = s.detections
      ∧ (fetchDetections get s).currentPage = s.currentPage
      ∧ (∃ message, (fetchDetections get s).error = some message ∧ message ≠ "")
      ∧ (fetchDetections get s).loading = false
      ∧ (fetchDetections get s).filters = s.filters
      ∧ (fetchDetections get s).draftFilters = s.draftFilters := by
  have h : fetchDetections get s = fetchFailed (fetchStarted s) := by
    unfold fetchDetections
    cases hp : buildParams s.filters with
    | none => rfl
    | some params =>
      rw [hp] at hfail
      have hg : get params = none := hfail
      simp only [hg]
  rw [h]
  exact ⟨rfl, rfl, ⟨_, rfl, by decide⟩, rfl, rfl, rfl⟩

/-- Witness for C12: a rejected request on page 3 of 25 records. -/
theorem fetchDetections_failure_witness :
    (fetchDetections (fun _ => none) staleState).detections = staleState.detections
      ∧ (fetchDetections (fun _ => none) staleState).currentPage = 3
      ∧ (fetchDetections (fun _ => none) staleState).loading = false := by
  obtain ⟨h1, h2, _, h4, _, _⟩ :=
    fetchDetections_failure (fun _ => none) staleState (by decide)
  exact ⟨h1, h2, h4⟩

/-! ### Filter editing -/

theorem jsGet_jsSet {α : Type} (o : List (String × α)) (k k' : String) (v : α) :
    jsGet (jsSet o k v) k' = if k = k' then some v else jsGet o k' := by
  induction o with
  | nil => simp [jsSet, jsGet]
  | cons kv rest ih =>
    obtain ⟨k0, v0⟩ := kv
    by_cases h0 : k0 = k
    · subst h0
      by_cases h1 : k0 = k' <;> simp [jsSet, jsGet, h1]
    · by_cases h1 : k = k'
      · subst h1
        simp [jsSet, jsGet, h0, ih]
      · by_cases h2 : k0 = k'
        · subst h2
          simp [jsSet, jsGet, h0, h1]
        · simp [jsSet, jsGet, h0, h1, h2, ih]

/-- Writing an entry keeps every class that had one. -/
theorem hasAllClasses_jsSet (f : FilterState) (cls : String) (cf : ClassFilter)
    (h : HasAllClasses f) :
    HasAllClasses { f with classFilters := jsSet f.classFilters cls cf } := by
  intro c hc
  have := h c hc
  simp only [jsGet_jsSet]
  by_cases hk : cls = c
  · simp [hk]
  · simpa [hk] using this

/-- A draft edit that returns touches nothing but the draft: the other state
fields and the identity of `filters` are the same. -/
theorem editDraft_some (p p' : Page) (e : DraftEdit) (h : editDraft p e = some p') :
    p'.state.filters = p.state.filters
      ∧ p'.state.detections = p.state.detections
      ∧ p'.state.currentPage = p.state.currentPage
      ∧ p'.state.loading = p.state.loading
      ∧ p'.state.error = p.state.error
      ∧ p'.filtersRef = p.filtersRef
      ∧ p'.draftRef = p.nextRef
      ∧ p'.nextRef = p.nextRef + 1 := by
  have key : ∀ updater, setDraftFilters p updater = some p' →
      p'.state.filters = p.state.filters
        ∧ p'.state.detections = p.state.detections
        ∧ p'.state.currentPage = p.state.currentPage
        ∧ p'.state.loading = p.state.loading
        ∧ p'.state.error = p.state.error
        ∧ p'.filtersRef = p.filtersRef
        ∧ p'.draftRef = p.nextRef
        ∧ p'.nextRef = p.nextRef + 1 := by
    intro updater hu
    unfold setDraftFilters at hu
    cases hd : updater p.state.draftFilters with
    | none => simp [hd] at hu
    | some d =>
      simp only [hd, Option.some.injEq] at hu
      subst hu
      exact ⟨rfl, rfl, rfl, rfl, rfl, rfl, rfl, rfl⟩
  cases e with
  | toggleClassFilter cls => exact key _ h
  | handleClassRangeChange cls field value => exact key _ h
  | handleFilterChange field value => exact key _ (by simpa only [editDraft] using h)
  | detectionId value => exact key _ (by simpa only [editDraft] using h)

/-- A draft edit on a draft with all seven entries, aimed at a known class,
returns, and the new draft has all seven entries again. -/
theorem editDraft_isSome (p : Page) (e : DraftEdit)
    (hall : HasAllClasses p.state.draftFilters) (hcls : e.targetsKnownClass) :
    ∃ p', editDraft p e = some p' ∧ HasAllClasses p'.state.draftFilters := by
  cases e with
  | toggleClassFilter cls =>
    have hs := hall cls hcls
    cases hg : jsGet p.state.draftFilters.classFilters cls with
    | none => simp [hg] at hs
    | some cf =>
      simp only [editDraft, setDraftFilters, toggleClassFilterUpdate, hg]
      exact ⟨_, rfl, hasAllClasses_jsSet _ _ _ hall⟩
  | handleClassRangeChange cls field value =>
    have hs := hall cls hcls
    cases hg : jsGet p.state.draftFilters.classFilters cls with
    | none => simp [hg] at hs
    | some cf =>
      simp only [editDraft, setDraftFilters, handleClassRangeChangeUpdate, hg]
      exact ⟨_, rfl, hasAllClasses_jsSet _ _ _ hall⟩
  | handleFilterChange field value =>
    simp only [editDraft, setDraftFilters]
    refine ⟨_, rfl, ?_⟩
    cases field <;> exact hall
  | detectionId value =>
    simp only [editDraft, setDraftFilters]
    exact ⟨_, rfl, hall⟩

theorem refsFresh_initialPage : RefsFresh initialPage :=
  ⟨by decide, by decide⟩

/-- The handlers keep every identity in use older than the next fresh one. -/
theorem refsFresh_handlers (p : Page) (h : RefsFresh p) :
    RefsFresh (applyFilters p) ∧ RefsFresh (resetFilters p)
      ∧ ∀ e p', editDraft p e = some p' → RefsFresh p' := by
  obtain ⟨h1, h2⟩ := h
  refine ⟨⟨h1, h1⟩, ⟨Nat.lt_succ_self _, Nat.lt_succ_self _⟩, ?_⟩
  intro e p' he
  obtain ⟨_, _, _, _, _, h6, h7, h8⟩ := editDraft_some p p' e he
  unfold RefsFresh
  omega


/-- C19: every draft edit (`toggleClassFilter`, `handleClassRangeChange`,
`handleFilterChange`, the `detectionId` edit) changes only the draft: the
applied filters, the dataset and `currentPage` are the same before and after,
so is the query built from the applied filters, and the fetch effect does not
run; it runs on the next `applyFilters` or `resetFilters`. -/
theorem editDraft_changes_only_draft (p : Page) (e : DraftEdit)
    (hall : HasAllClasses p.state.draftFilters) (hcls : e.targetsKnownClass)
    (hrefs : RefsFresh p) :
    ∃ p', editDraft p e = some p'
      ∧ p'.state.filters = p.state.filters
      ∧ p'.state.detections = p.state.detections
      ∧ p'.state.currentPage = p.state.currentPage
      ∧ p'.state.loading = p.state.loading
      ∧ p'.state.error = p.state.error
      ∧ buildParams p'.state.filters = buildParams p.state.filters
      ∧ effectDue p p' = false
      ∧ effectDue p' (applyFilters p') = true
      ∧ effectDue p' (resetFilters p') = true := by
  obtain ⟨p', hp', _⟩ := editDraft_isSome p e hall hcls
  obtain ⟨h1, h2, h3, h4, h5, h6, h7, h8⟩ := editDraft_some p p' e hp'
  obtain ⟨_, hr2⟩ := hrefs
  refine ⟨p', hp', h1, h2, h3, h4, h5, by rw [h1], ?_, ?_, ?_⟩
  · simp [effectDue, h6]
  · simp only [effectDue, applyFilters, h6, h7, bne_iff_ne, ne_eq]
    omega
  · simp only [effectDue, resetFilters, h6, h8, bne_iff_ne, ne_eq]
    omega

/-- Witness for C19: liners are switched off in the draft of the first render. -/
theorem editDraft_changes_only_draft_witness :
    ∃ p', editDraft initialPage (.toggleClassFilter "лайнер") = some p'
      ∧ p'.state.filters = defaultFilters
      ∧ p'.state.draftFilters ≠ defaultFilters
      ∧ effectDue initialPage p' = false := by
  obtain ⟨p', hp', h1, _, _, _, _, _, h8, _, _⟩ :=
    editDraft_changes_only_draft initialPage (.toggleClassFilter "лайнер")
      (by decide) (by decide : "лайнер" ∈ AVAILABLE_CLASSES) ⟨by decide, by decide⟩
  refine ⟨p', hp', h1, ?_, h8⟩
  have : editDraft initialPage (.toggleClassFilter "лайнер") = some p' := hp'
  intro hd
  have h2 : (editDraft initialPage (.toggleClassFilter "лайнер")).map
      (fun q => q.state.draftFilters) = some defaultFilters := by
    rw [this, Option.map_some', hd]
  revert h2
  decide

/-- The filter objects after `resetFilters` have no `detectionId`; in every
other field they are the default filters, and the query built from them is the
query of the default filters. -/
theorem resetFilters_state (p : Page) :
    (resetFilters p).state.draftFilters = initialFilters
      ∧ (resetFilters p).state.filters = initialFilters
      ∧ initialFilters.detectionId = none
      ∧ { initialFilters with detectionId := some "" } = defaultFilters
      ∧ buildParams initialFilters = buildParams defaultFilters :=
  ⟨rfl, rfl, rfl, rfl, by decide⟩

/-- C20: at the failing input. After `resetFilters` (here on a page whose draft
and applied filters carry the id 42) neither the draft nor the applied filter
object equals the default the page starts with: the default has
`detectionId = ''`, the reset objects have no `detectionId`. -/
theorem resetFilters_not_default :
    (resetFilters (applyFilters
        { initialPage with
          state := { initialState with draftFilters := sampleFilters } })).state.draftFilters
        ≠ defaultFilters
      ∧ (resetFilters (applyFilters
        { initialPage with
          state := { initialState with draftFilters := sampleFilters } })).state.filters
        ≠ defaultFilters
      ∧ (resetFilters (applyFilters
        { initialPage with
          state := { initialState with draftFilters := sampleFilters }
        })).state.draftFilters.detectionId = none
      ∧ defaultFilters.detectionId = some ""
      ∧ initialState.draftFilters = defaultFilters := by
  decide

end HistoryPage

namespace DetectionPage

/-! ### Detection session -/

/-- The three outcomes of one call of `handleDetect` on a state with a file. -/
theorem handleDetect_cases (upload : File → Option UploadResponse)
    (detect : DetectRequest → Option DetectResponse) (s : DetectionState) (f : File)
    (hf : s.file = some f) :
    handleDetect upload detect s =
      match upload f with
      | none =>
        ({ s with isLoading := false }, [.upload f, .alert "Ошибка при распознавании"])
      | some u =>
        match detect (detectRequest ⟨f, s.selectedClasses⟩ u) with
        | none =>
          ({ s with isLoading := false },
            [.upload f, .detect (detectRequest ⟨f, s.selectedClasses⟩ u),
              .alert "Ошибка при распознавании"])
        | some d =>
          ({ s with detection := some (detectionResult u d), isLoading := false },
            [.upload f, .detect (detectRequest ⟨f, s.selectedClasses⟩ u)]) := by
  simp only [handleDetect, handleDetectBegin, hf]
  cases hu : upload f with
  | none => simp [handleDetectAfterUpload]
  | some u =>
    simp only [handleDetectAfterUpload]
    cases hd : detect (detectRequest ⟨f, s.selectedClasses⟩ u) with
    | none => simp [handleDetectAfterDetect]
    | some d => simp [handleDetectAfterDetect]

/-- C13: with a file selected, a failed upload means no detect call is made;
and when the upload or the detect call fails the run ends with the same file
selected, the detection result not set, and `isLoading = false`, so the detect
button is enabled again and a later run with a working network detects that
same file. -/
theorem handleDetect_failure (upload : File → Option UploadResponse)
    (detect : DetectRequest → Option DetectResponse) (s : DetectionState) (f : File)
    (hf : s.file = some f) :
    (upload f = none →
        ∀ c ∈ (handleDetect upload detect s).2, ∀ request, c ≠ Call.detect request)
      ∧ ((upload f = none
            ∨ ∃ u, upload f = some u ∧ detect (detectRequest ⟨f, s.selectedClasses⟩ u) = none) →
          (handleDetect upload detect s).1.file = some f
            ∧ (handleDetect upload detect s).1.detection = s.detection
            ∧ (handleDetect upload detect s).1.isLoading = false
            ∧ (handleDetect upload detect s).1.selectedClasses = s.selectedClasses
            ∧ (s.detection = none →
                detectEnabled (handleDetect upload detect s).1 = true
                  ∧ ∀ (upload' : File → Option UploadResponse)
                      (detect' : DetectRequest → Option DetectResponse) u d,
                      upload' f = some u →
                      detect' (detectRequest ⟨f, s.selectedClasses⟩ u) = some d →
                      (handleDetect upload' detect' (handleDetect upload detect s).1).1.detection
                        = some (detectionResult u d))) := by
  have hc := handleDetect_cases upload detect s f hf
  have hfail : (upload f = none
        ∨ ∃ u, upload f = some u ∧ detect (detectRequest ⟨f, s.selectedClasses⟩ u) = none) →
      (handleDetect upload detect s).1 = { s with isLoading := false } := by
    rintro (hu | ⟨u, hu, hd⟩)
    · rw [hc, hu]
    · rw [hc, hu]
      simp only [hd]
  refine ⟨?_, ?_⟩
  · intro hu c hcmem request
    rw [hc, hu] at hcmem
    simp only [List.mem_cons, List.mem_singleton, List.not_mem_nil, or_false] at hcmem
    rcases hcmem with h | h <;> subst h <;> simp
  · intro h
    rw [hfail h]
    refine ⟨hf, rfl, rfl, rfl, ?_⟩
    intro hnone
    refine ⟨by simp [detectEnabled, hnone, hf], ?_⟩
    intro upload' detect' u d hu hd
    have hc' := handleDetect_cases upload' detect' { s with isLoading := false } f hf
    rw [hc', hu]
    simp only [hd]

/-- Witness for C13: the upload is rejected. -/
theorem handleDetect_failure_witness :
    (handleDetect (fun _ => none) (fun _ => some sampleDetectResponse) readyState).1.file
        = some fileA
      ∧ (handleDetect (fun _ => none) (fun _ => some sampleDetectResponse) readyState).1.detection
        = none
      ∧ (handleDetect (fun _ => none) (fun _ => some sampleDetectResponse) readyState).1.isLoading
        = false
      ∧ (handleDetect (fun _ => none) (fun _ => some sampleDetectResponse) readyState).2
        = [.upload fileA, .alert "Ошибка при распознавании"] := by
  obtain ⟨_, h⟩ := handleDetect_failure (fun _ => none) (fun _ => some sampleDetectResponse)
    readyState fileA rfl
  obtain ⟨h1, h2, h3, _, _⟩ := h (Or.inl rfl)
  exact ⟨h1, h2, h3, by decide⟩

/-- C14: with a file selected, an upload answered with key `k1` and a detect
call answered with `d`, the run ends with `isLoading = false` and a result that
has every field of `d`, `originalImage` = the base address followed by `k1`
and `processedImage` = the base address followed by `d.processed_image_key`;
the detect request carries `image_key = k1`. -/
theorem handleDetect_success (upload : File → Option UploadResponse)
    (detect : DetectRequest → Option DetectResponse) (s : DetectionState) (f : File)
    (u : UploadResponse) (d : DetectResponse)
    (hf : s.file = some f) (hu : upload f = some u)
    (hd : detect { image_key := u.image_key, classes := classesToSend s.selectedClasses }
      = some d) :
    (handleDetect upload detect s).1.isLoading = false
      ∧ (∃ result, (handleDetect upload detect s).1.detection = some result
          ∧ result.toDetectResponse = d
          ∧ result.originalImage = "http://localhost:9000/detections/" ++ u.image_key
          ∧ result.processedImage
              = "http://localhost:9000/detections/" ++ d.processed_image_key)
      ∧ (handleDetect upload detect s).2
          = [.upload f,
             .detect { image_key := u.image_key, classes := classesToSend s.selectedClasses }]
      ∧ (handleDetect upload detect s).1.file = some f := by
  have hc := handleDetect_cases upload detect s f hf
  rw [hu] at hc
  have hd' : detect (detectRequest ⟨f, s.selectedClasses⟩ u) = some d := hd
  simp only [hd'] at hc
  rw [hc]
  exact ⟨rfl, ⟨_, rfl, rfl, rfl, rfl⟩, rfl, hf⟩

/-- Witness for C14: the upload answers with key `in/a.png`. -/
theorem handleDetect_success_witness :
    (handleDetect (fun _ => some ⟨"in/a.png"⟩) (fun _ => some sampleDetectResponse)
        readyState).1.detection
      = some
          { sampleDetectResponse with
            originalImage := "http://localhost:9000/detections/in/a.png"
            processedImage := "http://localhost:9000/detections/out/7.png" } := by
  obtain ⟨_, ⟨result, hr, h1, h2, h3⟩, _, _⟩ :=
    handleDetect_success (fun _ => some ⟨"in/a.png"⟩) (fun _ => some sampleDetectResponse)
      readyState fileA ⟨"in/a.png"⟩ sampleDetectResponse rfl rfl rfl
  obtain ⟨response, original, processed⟩ := result
  simp only at h1 h2 h3
  rw [hr, h1, h2, h3]
  decide

/-- C15: with no file selected `handleDetect` stops at its guard: it makes
neither the upload nor the detect call, only the alert, and every state field
is as before; the detect button is disabled in that state as well. -/
theorem handleDetect_no_file (upload : File → Option UploadResponse)
    (detect : DetectRequest → Option DetectResponse) (s : DetectionState)
    (hf : s.file = none) :
    (handleDetect upload detect s).1 = s
      ∧ (handleDetect upload detect s).2 = [.alert "Выберите файл"]
      ∧ (∀ c ∈ (handleDetect upload detect s).2,
          (∀ file, c ≠ Call.upload file) ∧ ∀ request, c ≠ Call.detect request)
      ∧ (handleDetectBegin s).2.1 = none
      ∧ detectEnabled s = false := by
  have h : handleDetect upload detect s = (s, [.alert "Выберите файл"]) := by
    simp only [handleDetect, handleDetectBegin, hf]
  have hb : (handleDetectBegin s).2.1 = none := by
    simp only [handleDetectBegin, hf]
  rw [h]
  refine ⟨rfl, rfl, ?_, hb, by simp [detectEnabled, hf]⟩
  intro c hc
  simp only [List.mem_singleton] at hc
  subst hc
  exact ⟨fun _ => by simp, fun _ => by simp⟩

/-- Witness for C15: the first render, where no file is selected. -/
theorem handleDetect_no_file_witness :
    handleDetect (fun _ => some ⟨"in/a.png"⟩) (fun _ => some sampleDetectResponse)
        (initialSession AVAILABLE_CLASSES).state
      = ((initialSession AVAILABLE_CLASSES).state, [.alert "Выберите файл"]) := by
  obtain ⟨h1, h2, _⟩ :=
    handleDetect_no_file (fun _ => some ⟨"in/a.png"⟩) (fun _ => some sampleDetectResponse)
      (initialSession AVAILABLE_CLASSES).state rfl
  exact Prod.ext h1 h2


/-- The session invariant holds at the start. -/
theorem singleRun_initial (selectedClasses : List String) :
    SingleRun (initialSession selectedClasses) :=
  Or.inl ⟨rfl, rfl⟩

/-- Every transition keeps the session invariant. -/
theorem singleRun_dispatch (sess : Session) (a : Action) (h : SingleRun sess) :
    SingleRun (dispatch sess a) := by
  cases a with
  | clickDetect =>
    by_cases he : detectEnabled sess.state = true
    · have hload : sess.state.isLoading = false := by
        simp only [detectEnabled, Bool.and_eq_true, Bool.not_eq_true'] at he
        exact he.2
      have hfile : sess.state.file.isSome = true := by
        simp only [detectEnabled, Bool.and_eq_true] at he
        exact he.1.2
      obtain ⟨f, hf⟩ := Option.isSome_iff_exists.mp hfile
      rcases h with ⟨hin, _⟩ | ⟨_, hl⟩
      · right
        simp [dispatch, he, handleDetectBegin, hf, hin]
      · rw [hl] at hload
        exact absurd hload (by decide)
    · simpa [dispatch, he] using h
  | clickReset =>
    by_cases hg : (sess.state.file.isSome && sess.state.detection.isNone) = true
    · simpa [dispatch, hg, handleReset, SingleRun] using h
    · simpa [dispatch, hg] using h
  | changeFile f =>
    by_cases hg : sess.state.detection.isSome = true
    · simpa [dispatch, hg, handleFileChange, SingleRun] using h
    · simpa [dispatch, hg] using h
  | dropFile f =>
    by_cases hg : sess.state.detection.isNone = true
    · simpa [dispatch, hg, SingleRun] using h
    · simpa [dispatch, hg] using h
  | uploadSettles uploadRes =>
    rcases h with ⟨hin, hl⟩ | ⟨hlen, hl⟩
    · left
      simp [dispatch, hin, hl]
    · match hfl : sess.inFlight, hlen with
      | [.uploading r], _ =>
        cases uploadRes with
        | none => left; simp [dispatch, hfl, handleDetectAfterUpload]
        | some u => right; simp [dispatch, hfl, handleDetectAfterUpload, hl]
      | [.detecting r u], _ => right; simp [dispatch, hfl, hl]
  | detectSettles detectRes =>
    rcases h with ⟨hin, hl⟩ | ⟨hlen, hl⟩
    · left
      simp [dispatch, hin, hl]
    · match hfl : sess.inFlight, hlen with
      | [.uploading r], _ => right; simp [dispatch, hfl, hl]
      | [.detecting r u], _ =>
        cases detectRes with
        | none => left; simp [dispatch, hfl, handleDetectAfterDetect]
        | some d => left; simp [dispatch, hfl, handleDetectAfterDetect]

/-- The session invariant holds after every sequence of actions. -/
theorem singleRun_dispatchAll (sess : Session) (actions : List Action) (h : SingleRun sess) :
    SingleRun (dispatchAll sess actions) := by
  induction actions generalizing sess with
  | nil => exact h
  | cons a rest ih => exact ih _ (singleRun_dispatch sess a h)

/-- C16: at most one run is in flight. While `isLoading = true` a click on the
detect button does nothing: the button is `disabled`, so no upload or detect
call is made and no state changes. And in every session the page can reach,
at most one run waits for the network, and one waits exactly when
`isLoading = true`. -/
theorem one_run_in_flight :
    (∀ sess : Session, sess.state.isLoading = true → dispatch sess .clickDetect = sess)
      ∧ (∀ (selectedClasses : List String) (actions : List Action),
          (dispatchAll (initialSession selectedClasses) actions).inFlight.length ≤ 1
            ∧ ((dispatchAll (initialSession selectedClasses) actions).inFlight ≠ []
                ↔ (dispatchAll (initialSession selectedClasses) actions).state.isLoading
                    = true)) := by
  refine ⟨?_, ?_⟩
  · intro sess hl
    simp [dispatch, detectEnabled, hl]
  · intro selectedClasses actions
    have h := singleRun_dispatchAll _ actions (singleRun_initial selectedClasses)
    rcases h with ⟨hin, hl⟩ | ⟨hlen, hl⟩
    · simp [hin, hl]
    · refine ⟨by omega, ?_⟩
      constructor
      · intro _; exact hl
      · intro _ hnil
        rw [hnil] at hlen
        simp at hlen

/-- Witness for C16: a second click while the upload of `fileA` is pending
adds no call and no run. -/
theorem one_run_in_flight_witness :
    (dispatchAll (initialSession AVAILABLE_CLASSES)
        [.dropFile fileA, .clickDetect, .clickDetect]).calls = [.upload fileA]
      ∧ (dispatchAll (initialSession AVAILABLE_CLASSES)
        [.dropFile fileA, .clickDetect, .clickDetect]).inFlight.length ≤ 1 := by
  have h := one_run_in_flight.1
    (dispatchAll (initialSession AVAILABLE_CLASSES) [.dropFile fileA, .clickDetect]) (by decide)
  have h2 := (one_run_in_flight.2 AVAILABLE_CLASSES
    [.dropFile fileA, .clickDetect, .clickDetect]).1
  refine ⟨?_, h2⟩
  have e : dispatchAll (initialSession AVAILABLE_CLASSES)
      [.dropFile fileA, .clickDetect, .clickDetect]
      = dispatch (dispatchAll (initialSession AVAILABLE_CLASSES) [.dropFile fileA, .clickDetect])
          .clickDetect := rfl
  rw [e, h]
  decide

/-- C17 as stated fails: a run started for `fileA` still sets the detection
result when, while it is in flight, the session is reset (no file is selected
at the end) or `fileB` is dropped (the result of `fileA` is shown with `fileB`
selected). -/
theorem completion_after_reset_sets_result :
    (dispatchAll (initialSession AVAILABLE_CLASSES)
        [.dropFile fileA, .clickDetect, .clickReset, .uploadSettles (some ⟨"in/a.png"⟩),
          .detectSettles (some sampleDetectResponse)]).state.file = none
      ∧ (dispatchAll (initialSession AVAILABLE_CLASSES)
        [.dropFile fileA, .clickDetect, .clickReset, .uploadSettles (some ⟨"in/a.png"⟩),
          .detectSettles (some sampleDetectResponse)]).state.detection
        = some (detectionResult ⟨"in/a.png"⟩ sampleDetectResponse)
      ∧ (dispatchAll (initialSession AVAILABLE_CLASSES)
        [.dropFile fileA, .clickDetect, .dropFile fileB, .uploadSettles (some ⟨"in/a.png"⟩),
          .detectSettles (some sampleDetectResponse)]).state.file = some fileB
      ∧ (dispatchAll (initialSession AVAILABLE_CLASSES)
        [.dropFile fileA, .clickDetect, .dropFile fileB, .uploadSettles (some ⟨"in/a.png"⟩),
          .detectSettles (some sampleDetectResponse)]).state.detection
        = some (detectionResult ⟨"in/a.png"⟩ sampleDetectResponse) := by
  decide

/-- C17, amended: the result of an outstanding run is applied unconditionally.
When the detect call of the waiting run succeeds, the completion sets the
detection result built from that run's two responses and sets
`isLoading = false`, whatever file is selected at that moment; the selected
file and the selected classes stay as they are. -/
theorem detectSettles_sets_result (sess : Session) (r : Run) (u : UploadResponse)
    (rest : List InFlight) (d : DetectResponse)
    (hwait : sess.inFlight = .detecting r u :: rest) :
    (dispatch sess (.detectSettles (some d))).state
        = { sess.state with detection := some (detectionResult u d), isLoading := false }
      ∧ (dispatch sess (.detectSettles (some d))).state.file = sess.state.file
      ∧ (dispatch sess (.detectSettles (some d))).inFlight = rest := by
  simp [dispatch, hwait, handleDetectAfterDetect]

/-- Witness for C17, amended: the detect call answers after a reset. -/
theorem detectSettles_sets_result_witness :
    (dispatch (dispatchAll (initialSession AVAILABLE_CLASSES)
        [.dropFile fileA, .clickDetect, .clickReset, .uploadSettles (some ⟨"in/a.png"⟩)])
      (.detectSettles (some sampleDetectResponse))).state
      = { file := none
          detection := some (detectionResult ⟨"in/a.png"⟩ sampleDetectResponse)
          selectedClasses := AVAILABLE_CLASSES
          settingsOpen := false
          isLoading := false } := by
  have h := (detectSettles_sets_result
    (dispatchAll (initialSession AVAILABLE_CLASSES)
      [.dropFile fileA, .clickDetect, .clickReset, .uploadSettles (some ⟨"in/a.png"⟩)])
    ⟨fileA, AVAILABLE_CLASSES⟩ ⟨"in/a.png"⟩ [] sampleDetectResponse (by decide)).1
  rw [h]
  decide

/-- For a selection without repetition made of known labels, the classes sent
are the selected ones: the same labels, and the full list when all seven are
selected. -/
theorem classesToSend_mem_iff (selectedClasses : List String)
    (hknown : ∀ c ∈ selectedClasses, c ∈ AVAILABLE_CLASSES) (hnodup : selectedClasses.Nodup)
    (c : String) : c ∈ classesToSend selectedClasses ↔ c ∈ selectedClasses := by
  unfold classesToSend
  by_cases hlen : selectedClasses.length = AVAILABLE_CLASSES.length
  · simp only [hlen, if_true]
    have hsub : selectedClasses.Subperm AVAILABLE_CLASSES := hnodup.subperm hknown
    have hperm : selectedClasses.Perm AVAILABLE_CLASSES :=
      hsub.perm_of_length_le (le_of_eq hlen.symm)
    exact (hperm.mem_iff).symm
  · simp only [hlen, if_false]

/-- C18: at the failing input. Stored settings that list `яхта` seven times
load as a selection of length 7; `classesToSend` takes the length for a full
selection and the detect request carries all seven classes, six of which are
not selected. -/
theorem classesToSend_seven_repeats :
    loadSettings
        (fun _ => some (.obj [("selectedClasses",
          .arr ((List.replicate 7 "яхта").map Json.str))]))
        (some "saved")
        = List.replicate 7 "яхта"
      ∧ classesToSend (List.replicate 7 "яхта") = AVAILABLE_CLASSES
      ∧ "балкер" ∈ classesToSend (List.replicate 7 "яхта")
      ∧ "балкер" ∉ List.replicate 7 "яхта"
      ∧ (handleDetect (fun _ => some ⟨"in/a.png"⟩) (fun _ => some sampleDetectResponse)
          { readyState with selectedClasses := List.replicate 7 "яхта" }).2
        = [.upload fileA, .detect { image_key := "in/a.png", classes := AVAILABLE_CLASSES }] := by
  decide

end DetectionPage

namespace DetectionPage

/-! ### Saving and loading the settings -/

/-- C21: save/load round trip. For every selection made of known labels, the
text stored by the saving effect, read back by `loadSettings`, gives that same
list: same labels, same order. `JSON.stringify` and `JSON.parse` enter through
their contract on the stored object: the text is not empty and parses back to
the object. -/
theorem loadSettings_savedSettings (parse : String → Option Json) (stringify : Json → String)
    (selectedClasses : List String)
    (hknown : ∀ c ∈ selectedClasses, c ∈ AVAILABLE_CLASSES)
    (htext : stringify (settingsObject selectedClasses) ≠ "")
    (hround : parse (stringify (settingsObject selectedClasses))
      = some (settingsObject selectedClasses)) :
    loadSettings parse (some (savedSettings stringify selectedClasses)) = selectedClasses := by
  have hfilter : (selectedClasses.map Json.str).filterMap knownClass = selectedClasses := by
    rw [filterMap_knownClass_str]
    exact List.filter_eq_self.mpr (fun c hc => by simpa using hknown c hc)
  unfold loadSettings loadSettingsTry savedSettings
  simp only [htext, if_false, hround]
  simp only [settingsObject, jsGet, if_true, hfilter]

/-- Witness for C21: the selection `яхта`, `балкер` and its JSON text. -/
theorem loadSettings_savedSettings_witness :
    loadSettings
        (fun text => if text = sampleSavedText then some (settingsObject ["яхта", "балкер"])
          else none)
        (some (savedSettings (fun _ => sampleSavedText) ["яхта", "балкер"]))
      = ["яхта", "балкер"] :=
  loadSettings_savedSettings
    (fun text => if text = sampleSavedText then some (settingsObject ["яхта", "балкер"])
      else none)
    (fun _ => sampleSavedText) ["яхта", "балкер"] (by decide) (by decide) (by simp)

end DetectionPage

namespace HistoryPage

/-! ### Overlapping fetches -/

/-- C22: overlapping fetches are not fenced. With two requests waiting, `q1`
sent before `q2`, and both answered, the dataset afterwards is the payload of
the answer that arrives last: the answer to the earlier request `q1` when it
arrives second, the answer to `q2` when the answers arrive in order. In both
cases the applied filters are those of the later commit, no request is left
waiting, and the page is 1. -/
theorem last_response_wins (sess : FetchSession) (q1 q2 : List (String × String))
    (res1 res2 : FetchResponse) (hwait : sess.pending = [q1, q2]) :
    (dispatchFetchAll sess [.settle 1 (some res2), .settle 0 (some res1)]).page.state.detections
        = res1.detections.getD []
      ∧ (dispatchFetchAll sess
          [.settle 0 (some res1), .settle 0 (some res2)]).page.state.detections
        = res2.detections.getD []
      ∧ (dispatchFetchAll sess [.settle 1 (some res2), .settle 0 (some res1)]).page.state.filters
        = sess.page.state.filters
      ∧ (dispatchFetchAll sess [.settle 1 (some res2), .settle 0 (some res1)]).pending = []
      ∧ (dispatchFetchAll sess
          [.settle 1 (some res2), .settle 0 (some res1)]).page.state.currentPage = 1 := by
  simp [dispatchFetchAll, dispatchFetch, hwait, settleFetch, fetchSucceeded, List.eraseIdx]

/-- Witness for C22: the id filter is committed as 1 and then as 2; the answer
to the second request (record 20) arrives first, the answer to the first
(record 10) last. The page then shows record 10 under the applied filter 2. -/
theorem last_response_wins_witness :
    twoCommits.page.state.filters.detectionId = some "2"
      ∧ (dispatchFetchAll twoCommits
          [.settle 1 (some ⟨some [sampleDetection 20]⟩),
           .settle 0 (some ⟨some [sampleDetection 10]⟩)]).page.state.detections
        = [sampleDetection 10]
      ∧ (dispatchFetchAll twoCommits
          [.settle 1 (some ⟨some [sampleDetection 20]⟩),
           .settle 0 (some ⟨some [sampleDetection 10]⟩)]).page.state.filters.detectionId
        = some "2" := by
  obtain ⟨h1, _, h3, _, _⟩ :=
    last_response_wins twoCommits
      ((buildParams { defaultFilters with detectionId := some "1" }).getD [])
      ((buildParams { defaultFilters with detectionId := some "2" }).getD [])
      ⟨some [sampleDetection 10]⟩ ⟨some [sampleDetection 20]⟩ (by decide)
  refine ⟨by decide, h1, ?_⟩
  rw [h3]
  decide

end HistoryPage

namespace HistoryPage

/-! ### Shape of the pagination window -/

/-- With at most seven pages the window is the list `1..totalPages`, empty
when `totalPages` is not positive. -/
theorem getPaginationItems_small (tp cp : Int) (h7 : tp ≤ 7) :
    getPaginationItems tp cp = pagesUpTo tp.toNat := by
  unfold getPaginationItems
  simp only [h7, if_true]
  by_cases h0 : 0 ≤ tp
  · have he := pushPages_eq tp tp.toNat 1 [] (by push_cast; omega)
    simpa [pagesUpTo] using he
  · have hz : tp.toNat = 0 := by omega
    rw [hz]
    rfl

/-- The last five pages, written out. -/
theorem lastFive_eq (tp : Int) :
    lastFive tp
      = [.page (tp - 4), .page (tp - 3), .page (tp - 2), .page (tp - 1), .page tp] := by
  simp only [lastFive]
  simp [List.range_succ]
  refine ⟨?_, ?_, ?_⟩ <;> omega

theorem pageNumbers_map_page (l : List Nat) :
    pageNumbers (l.map (fun (k : Nat) => PageToken.page (k : Int)))
      = l.map (fun (k : Nat) => (k : Int)) := by
  induction l with
  | nil => rfl
  | cons k rest ih => simp only [List.map_cons, pageNumbers, ih]

theorem mem_pagesUpTo (n : Nat) (k : Int) :
    PageToken.page k ∈ pagesUpTo n ↔ 1 ≤ k ∧ k ≤ (n : Int) := by
  simp only [pagesUpTo, List.mem_map, List.mem_range'_1, PageToken.page.injEq]
  constructor
  · rintro ⟨a, ⟨h1, h2⟩, rfl⟩
    omega
  · intro ⟨h1, h2⟩
    refine ⟨k.toNat, ⟨by omega, by omega⟩, by omega⟩

/-- C23: the window is bounded and well-formed. For every `totalPages` and
every `currentPage`, `getPaginationItems` returns at most 7 tokens, the
numbers on its page buttons are strictly increasing (so none appears twice),
and each of them lies in `[1, totalPages]`. -/
theorem getPaginationItems_wellFormed (totalPages currentPage : Int) :
    (getPaginationItems totalPages currentPage).length ≤ 7
      ∧ (pageNumbers (getPaginationItems totalPages currentPage)).Pairwise (fun a b => a < b)
      ∧ (pageNumbers (getPaginationItems totalPages currentPage)).Nodup
      ∧ (∀ n, PageToken.page n ∈ getPaginationItems totalPages currentPage →
          1 ≤ n ∧ n ≤ totalPages) := by
  have hpair : (pageNumbers (getPaginationItems totalPages currentPage)).Pairwise
      (fun a b => a < b) := by
    by_cases h7 : totalPages ≤ 7
    · rw [getPaginationItems_small _ _ h7, pagesUpTo, pageNumbers_map_page]
      refine List.Pairwise.map _ ?_ (List.pairwise_lt_range' 1 totalPages.toNat)
      intro a b hab
      exact_mod_cast hab
    · unfold getPaginationItems
      simp only [h7, if_false]
      by_cases h4 : currentPage ≤ 4
      · simp only [h4, if_true, pageNumbers]
        simp
        omega
      · simp only [h4, if_false]
        by_cases hl : currentPage ≥ totalPages - 3
        · simp only [hl, if_true, lastFive_eq, List.cons_append, List.nil_append, pageNumbers]
          simp
          omega
        · simp only [hl, if_false, pageNumbers]
          simp
          omega
  refine ⟨?_, hpair, ?_, fun n hn => page_mem_getPaginationItems _ _ n hn⟩
  · by_cases h7 : totalPages ≤ 7
    · rw [getPaginationItems_small _ _ h7]
      simp only [pagesUpTo, List.length_map, List.length_range']
      omega
    · unfold getPaginationItems
      simp only [h7, if_false]
      split_ifs <;> simp [lastFive_eq]
  · exact hpair.imp (fun h => ne_of_lt h)

/-- C24: for every `totalPages ≥ 1` and every `currentPage` between 1 and
`totalPages`, the window has page buttons for the first page, the last page
and the current page. -/
theorem getPaginationItems_contains (totalPages currentPage : Int)
    (htp : 1 ≤ totalPages) (hlo : 1 ≤ currentPage) (hhi : currentPage ≤ totalPages) :
    PageToken.page 1 ∈ getPaginationItems totalPages currentPage
      ∧ PageToken.page totalPages ∈ getPaginationItems totalPages currentPage
      ∧ PageToken.page currentPage ∈ getPaginationItems totalPages currentPage := by
  by_cases h7 : totalPages ≤ 7
  · rw [getPaginationItems_small _ _ h7]
    simp only [mem_pagesUpTo]
    omega
  · unfold getPaginationItems
    simp only [h7, if_false]
    by_cases h4 : currentPage ≤ 4
    · simp only [h4, if_true, List.mem_cons, PageToken.page.injEq, List.mem_singleton,
        List.not_mem_nil, or_false, reduceCtorEq, false_or, or_true, true_or, true_and]
      omega
    · simp only [h4, if_false]
      by_cases hl : currentPage ≥ totalPages - 3
      · simp only [hl, if_true, lastFive_eq, List.cons_append, List.nil_append, List.mem_cons,
          PageToken.page.injEq, List.mem_singleton, List.not_mem_nil, or_false, reduceCtorEq,
          false_or, or_true, true_or, true_and]
        omega
      · simp only [hl, if_false, List.mem_cons, PageToken.page.injEq, List.mem_singleton,
          List.not_mem_nil, or_false, reduceCtorEq, false_or, or_true, true_or, true_and]

/-- Witness for C24: page 10 of 20. -/
theorem getPaginationItems_contains_witness :
    PageToken.page 1 ∈ getPaginationItems 20 10
      ∧ PageToken.page 20 ∈ getPaginationItems 20 10
      ∧ PageToken.page 10 ∈ getPaginationItems 20 10 :=
  getPaginationItems_contains 20 10 (by decide) (by decide) (by decide)

end HistoryPage

namespace HistoryPage

/-! ### Page slices -/

/-- The slice of page `p + 1`: the ten records after the first `10 * p`. -/
theorem currentData_succ (detections : List Detection) (p : Nat) :
    currentData detections ((p : Int) + 1) = (detections.drop (10 * p)).take 10 := by
  have hstart : sliceIndex detections.length (((p : Int) + 1 - 1) * (PAGE_SIZE : Int))
      = min (10 * p) detections.length := by
    unfold sliceIndex PAGE_SIZE
    have : ¬ (((p : Int) + 1 - 1) * ((10 : Nat) : Int) < 0) := by push_cast; omega
    rw [if_neg this]
    congr 1
    push_cast
    omega
  have hstop : sliceIndex detections.length (((p : Int) + 1) * (PAGE_SIZE : Int))
      = min (10 * p + 10) detections.length := by
    unfold sliceIndex PAGE_SIZE
    have : ¬ (((p : Int) + 1) * ((10 : Nat) : Int) < 0) := by push_cast; omega
    rw [if_neg this]
    congr 1
    push_cast
    omega
  unfold currentData jsSlice
  rw [hstart, hstop]
  by_cases hlen : detections.length ≤ 10 * p
  · rw [Nat.min_eq_right hlen, List.drop_eq_nil_of_le (le_refl _),
      List.drop_eq_nil_of_le hlen]
    simp
  · have hlt : 10 * p < detections.length := by omega
    rw [Nat.min_eq_left (le_of_lt hlt)]
    rw [List.take_eq_take]
    simp only [List.length_drop]
    omega

/-- Cutting a list into consecutive runs of ten and joining them again gives
the list back, when the runs cover its length. -/
theorem flatMap_runs_of_ten {α : Type} (n : Nat) :
    ∀ (l : List α), l.length ≤ 10 * n →
      (List.range n).flatMap (fun i => (l.drop (10 * i)).take 10) = l := by
  induction n with
  | zero =>
    intro l hl
    have : l = [] := List.length_eq_zero.mp (by omega)
    simp [this]
  | succ n ih =>
    intro l hl
    rw [List.range_succ_eq_map, List.flatMap_cons, List.flatMap_map]
    have hrest := ih (l.drop 10) (by simp only [List.length_drop]; omega)
    have hfun : (fun i => (l.drop (10 * Nat.succ i)).take 10)
        = (fun i => ((l.drop 10).drop (10 * i)).take 10) := by
      funext i
      rw [List.drop_drop]
      congr 2
      omega
    simp only [Function.comp_def] at *
    rw [hfun, hrest]
    exact List.take_append_drop 10 l

/-- The pages cover the records: `len ≤ 10 * totalPages < len + 10`. -/
theorem totalPages_bounds (detections : List Detection) :
    detections.length ≤ 10 * (totalPages detections).toNat
      ∧ 10 * (totalPages detections).toNat < detections.length + 10 := by
  unfold totalPages PAGE_SIZE
  simp only [Int.toNat_ofNat]
  omega

/-- C25: the page slices partition the dataset. With
`totalPages = ceil(len / 10)`, the slice `detections.slice((p - 1) * 10, p * 10)`
is non-empty and has at most 10 records for every page `p` in
`[1, totalPages]`, and the slices of the pages `1..totalPages`, joined in
order, are exactly the list `detections`. -/
theorem currentData_partition (detections : List Detection) :
    (∀ p : Int, 1 ≤ p → p ≤ totalPages detections →
        currentData detections p ≠ [] ∧ (currentData detections p).length ≤ 10)
      ∧ (List.range' 1 (totalPages detections).toNat).flatMap
          (fun (p : Nat) => currentData detections (p : Int))
        = detections := by
  obtain ⟨hcover, htight⟩ := totalPages_bounds detections
  refine ⟨?_, ?_⟩
  · intro p h1 hp
    obtain ⟨k, hk⟩ : ∃ k : Nat, p = (k : Int) + 1 := ⟨(p - 1).toNat, by omega⟩
    subst hk
    rw [currentData_succ]
    have hk' : k + 1 ≤ (totalPages detections).toNat := by omega
    have hlt : 10 * k < detections.length := by omega
    refine ⟨?_, ?_⟩
    · intro hnil
      have hlen := congrArg List.length hnil
      simp only [List.length_take, List.length_drop, List.length_nil] at hlen
      omega
    · simp only [List.length_take]
      omega
  · rw [List.range'_eq_map_range, List.flatMap_map]
    have hfun : (fun (a : Nat) => currentData detections ((1 + a : Nat) : Int))
        = (fun i => (detections.drop (10 * i)).take 10) := by
      funext i
      rw [show ((1 + i : Nat) : Int) = (i : Int) + 1 by push_cast; omega, currentData_succ]
    show (List.range (totalPages detections).toNat).flatMap
      (fun (a : Nat) => currentData detections ((1 + a : Nat) : Int)) = detections
    rw [hfun]
    exact flatMap_runs_of_ten _ detections hcover

/-- Witness for C25: 25 records make three pages of 10, 10 and 5. -/
theorem currentData_partition_witness :
    (currentData ((List.range 25).map (fun i => sampleDetection i)) 3).length = 5
      ∧ currentData ((List.range 25).map (fun i => sampleDetection i)) 3 ≠ [] := by
  have h := (currentData_partition ((List.range 25).map (fun i => sampleDetection i))).1 3
    (by decide) (by decide)
  exact ⟨by decide, h.1⟩

end HistoryPage

end Aquavision
